import Mathlib

/-!
Verification of the KeepWise valuation / return engine
(`src/apps/keepwise-tauri/src-tauri/src/investment_analytics.rs` and
`src/apps/keepwise-tauri/src-tauri/src/wealth_analytics.rs`).

Modelling conventions:
* `chrono::NaiveDate` is modelled by a `Date` structure (year/month/day over `Int`)
  together with the standard proleptic-Gregorian day-number conversion
  (`Date.toRata` / `Date.ofRata`, the civil-days algorithm).  The ordering used
  everywhere is the day-number ordering, which agrees with `NaiveDate`'s
  lexicographic ordering on valid dates; `(b - a).num_days()` becomes
  `daysBetween a b = b.toRata - a.toRata`, and `d - Duration::days(n)` becomes
  `Date.subDays d n`.
* `f64` arithmetic on monetary quantities is modelled exactly over `ℚ`;
  `f64::round` (round half away from zero) is `rustRound`, and `round_to` is
  `roundTo`.  The one genuinely transcendental computation, the annualised
  rate `(1+rr).powf(365/interval)`, is modelled over `ℝ` by the companion
  function `dietzAnnualizedRate`, which reproduces exactly the branch
  structure of the source (the field is `None` in the zero-interval and
  non-positive-capital branches, and in the main branch it is defined iff
  `1 + rr > 0`).
* Rust `Result<_, String>` becomes `Except String _`.  Raw string date inputs
  (`from_raw` / `to_raw`) are modelled as `Option Date`: an empty string is
  `none` (in the source an empty string fails `parse_iso_date` with
  "缺少字段: …", which `parseOptDate` reproduces).
* Presentation-only fields of the JSON payloads (the `*_yuan` decimal texts and
  the `*_pct` percent texts, which are string renderings of the integer /
  rational fields) are omitted from the payload structures.
-/

namespace KeepWise

/-- A calendar date, as `chrono::NaiveDate`. -/
structure Date where
  year : Int
  month : Int
  day : Int
deriving DecidableEq, Repr

instance : Inhabited Date := ⟨⟨1970, 1, 1⟩⟩

/-- Day number of a civil date (Hinnant's `days_from_civil`); day 0 is 1970-01-01. -/
def Date.toRata (dt : Date) : Int :=
  let y := dt.year - (if dt.month ≤ 2 then 1 else 0)
  let era := Int.fdiv y 400
  let yoe := y - era * 400
  let mp := Int.emod (dt.month + 9) 12
  let doy := Int.fdiv (153 * mp + 2) 5 + dt.day - 1
  let doe := yoe * 365 + Int.fdiv yoe 4 - Int.fdiv yoe 100 + doy
  era * 146097 + doe - 719468

/-- Civil date of a day number (Hinnant's `civil_from_days`). -/
def Date.ofRata (z0 : Int) : Date :=
  let z := z0 + 719468
  let era := Int.fdiv z 146097
  let doe := z - era * 146097
  let yoe := Int.fdiv (doe - Int.fdiv doe 1460 + Int.fdiv doe 36524 - Int.fdiv doe 146096) 365
  let y := yoe + era * 400
  let doy := doe - (365 * yoe + Int.fdiv yoe 4 - Int.fdiv yoe 100)
  let mp := Int.fdiv (5 * doy + 2) 153
  let d := doy - Int.fdiv (153 * mp + 2) 5 + 1
  let m := mp + (if mp < 10 then 3 else (-9 : Int))
  ⟨y + (if m ≤ 2 then 1 else 0), m, d⟩

instance : LE Date := ⟨fun a b => a.toRata ≤ b.toRata⟩
instance : LT Date := ⟨fun a b => a.toRata < b.toRata⟩

instance (a b : Date) : Decidable (a ≤ b) :=
  inferInstanceAs (Decidable (a.toRata ≤ b.toRata))

instance (a b : Date) : Decidable (a < b) :=
  inferInstanceAs (Decidable (a.toRata < b.toRata))

/-- Model of `(b - a).num_days()` of `chrono`. -/
def daysBetween (a b : Date) : Int := b.toRata - a.toRata

/-- Model of `d - Duration::days(n)` of `chrono`. -/
def Date.subDays (dt : Date) (n : Int) : Date := Date.ofRata (dt.toRata - n)

/-- Model of `f64::round`: round half away from zero. -/
def rustRound (q : ℚ) : Int := if 0 ≤ q then ⌊q + 1 / 2⌋ else -⌊1 / 2 - q⌋

/-- Model of `round_to(value, digits)` from the source. -/
def roundTo (q : ℚ) (digits : Nat) : ℚ := (rustRound (q * 10 ^ digits) : ℚ) / 10 ^ digits

/-- A dated external cash flow (`TransferRow` in the source). -/
structure TransferRow where
  snapshot_date : Date
  transfer_amount_cents : Int
deriving DecidableEq, Repr

/-- One entry of the `cash_flows` output array (yuan text omitted). -/
structure CashFlowEntry where
  snapshot_date : Date
  transfer_amount_cents : Int
  weight : ℚ
deriving DecidableEq, Repr

/-- Result record of the Modified Dietz calculation (`ModifiedDietzCalc`).
The `annualized_rate` field, being a transcendental `f64` power, is modelled
by the companion function `dietzAnnualizedRate` below. -/
structure ModifiedDietzCalc where
  interval_days : Int
  net_flow_cents : Int
  profit_cents : Int
  weighted_capital_cents : Int
  return_rate : Option ℚ
  note : String
  cash_flows : List CashFlowEntry
deriving DecidableEq, Repr

/-- Weight of one flow: `(end_date - flow_date).days / interval_days` when the
interval is positive, else `0`. -/
def dietzWeight (end_date : Date) (interval_days : Int) (flow_date : Date) : ℚ :=
  if 0 < interval_days then (daysBetween flow_date end_date : ℚ) / (interval_days : ℚ) else 0

/-- The `weighted_flow` accumulator loop (zero flows are skipped, as in the source). -/
def dietzWeightedFlow (end_date : Date) (interval_days : Int)
    (flow_rows : List TransferRow) : ℚ :=
  flow_rows.foldl
    (fun acc r =>
      if r.transfer_amount_cents = 0 then acc
      else acc + (r.transfer_amount_cents : ℚ) * dietzWeight end_date interval_days r.snapshot_date)
    0

/-- The `cash_flows` output array built in the same loop. -/
def dietzCashFlows (end_date : Date) (interval_days : Int)
    (flow_rows : List TransferRow) : List CashFlowEntry :=
  flow_rows.filterMap fun r =>
    if r.transfer_amount_cents = 0 then none
    else some ⟨r.snapshot_date, r.transfer_amount_cents,
      roundTo (dietzWeight end_date interval_days r.snapshot_date) 6⟩

/-- Model of `denominator = begin_assets_cents + weighted_flow`: the weighted capital. -/
def dietzDenominator (begin_date end_date : Date) (begin_assets_cents : Int)
    (flow_rows : List TransferRow) : ℚ :=
  (begin_assets_cents : ℚ) + dietzWeightedFlow end_date (daysBetween begin_date end_date) flow_rows

/-- The note emitted when the weighted capital is non-positive. -/
def noteWeightedCapital : String := "加权本金小于等于 0，无法计算现金加权收益率。"

/-- Model of `net_flow_cents = Σ flows`. -/
def dietzNetFlow (flow_rows : List TransferRow) : Int :=
  (flow_rows.map (·.transfer_amount_cents)).sum

/-- The `(return_rate, _, note)` selection of the source, `return_rate` part:
the non-positive-capital branch dominates; at zero interval the rate is `0`;
otherwise `profit / denominator`. -/
def dietzReturnRate (interval_days : Int) (denominator : ℚ) (profit_cents : Int) : Option ℚ :=
  if interval_days = 0 then
    if denominator ≤ 0 then none else some 0
  else if denominator ≤ 0 then none
  else some ((profit_cents : ℚ) / denominator)

/-- The `note` part of the same selection (non-empty exactly in the
non-positive-capital branches). -/
def dietzNote (denominator : ℚ) : String :=
  if denominator ≤ 0 then noteWeightedCapital else ""

/-- Model of `calculate_modified_dietz` from `investment_analytics.rs` (the
`(return_rate, annualized_rate, note)` tuple is split across
`dietzReturnRate`, `dietzAnnualizedRate` and `dietzNote`). -/
def calculate_modified_dietz (begin_date end_date : Date)
    (begin_assets_cents end_assets_cents : Int)
    (flow_rows : List TransferRow) (allow_zero_interval : Bool) :
    Except String ModifiedDietzCalc :=
  if daysBetween begin_date end_date < 0 then
    .error "结束日期不能早于开始日期"
  else if daysBetween begin_date end_date = 0 ∧ allow_zero_interval = false then
    .error "区间内有效快照不足，无法计算收益率"
  else
    .ok
      { interval_days := daysBetween begin_date end_date
        net_flow_cents := dietzNetFlow flow_rows
        profit_cents := end_assets_cents - begin_assets_cents - dietzNetFlow flow_rows
        weighted_capital_cents :=
          rustRound (dietzDenominator begin_date end_date begin_assets_cents flow_rows)
        return_rate :=
          dietzReturnRate (daysBetween begin_date end_date)
            (dietzDenominator begin_date end_date begin_assets_cents flow_rows)
            (end_assets_cents - begin_assets_cents - dietzNetFlow flow_rows)
        note := dietzNote (dietzDenominator begin_date end_date begin_assets_cents flow_rows)
        cash_flows := dietzCashFlows end_date (daysBetween begin_date end_date) flow_rows }

/-- The `annualized_rate` field of the source, reconstructed from the branch
taken: `None` when the rate itself is undefined or the interval is zero, and
otherwise `(1+rr)^(365/interval) - 1` exactly when `1 + rr > 0` (the source
never raises a fractional power of a non-positive base). -/
noncomputable def dietzAnnualizedRate (c : ModifiedDietzCalc) : Option ℝ :=
  match c.return_rate with
  | none => none
  | some rr =>
    if c.interval_days = 0 then none
    else if 0 < 1 + rr then
      some ((1 + (rr : ℝ)) ^ ((365 : ℝ) / (c.interval_days : ℝ)) - 1)
    else none

lemma dietzWeight_zero_interval (end_date flow_date : Date) :
    dietzWeight end_date 0 flow_date = 0 := by
  simp [dietzWeight]

lemma dietzWeightedFlow_of_interval_eq_zero (end_date : Date) (flow_rows : List TransferRow) :
    dietzWeightedFlow end_date 0 flow_rows = 0 := by
  have h : ∀ (l : List TransferRow) (acc : ℚ),
      l.foldl
        (fun acc r =>
          if r.transfer_amount_cents = 0 then acc
          else acc + (r.transfer_amount_cents : ℚ) * dietzWeight end_date 0 r.snapshot_date)
        acc = acc := by
    intro l
    induction l with
    | nil => intro acc; rfl
    | cons r t ih =>
      intro acc
      simp only [List.foldl_cons, dietzWeight_zero_interval, mul_zero, add_zero]
      split <;> simp [ih]
  exact h flow_rows 0

lemma dietzAnnualizedRate_of_rate_none (c : ModifiedDietzCalc) (h : c.return_rate = none) :
    dietzAnnualizedRate c = none := by
  unfold dietzAnnualizedRate
  rw [h]

lemma dietzAnnualizedRate_of_zero_interval (c : ModifiedDietzCalc) (rr : ℚ)
    (h : c.return_rate = some rr) (hi : c.interval_days = 0) :
    dietzAnnualizedRate c = none := by
  unfold dietzAnnualizedRate
  rw [h]
  simp [hi]

/-- C1: With a positive interval and non-positive weighted capital, the
Modified Dietz calculation succeeds (no error) with `return_rate = None`,
`annualized_rate = None`, and a non-empty explanatory note. -/
theorem dietz_nonpositive_capital_no_error (bd ed : Date) (bv ev : Int)
    (flows : List TransferRow) (flag : Bool)
    (hpos : 0 < daysBetween bd ed)
    (hcap : dietzDenominator bd ed bv flows ≤ 0) :
    ∃ c, calculate_modified_dietz bd ed bv ev flows flag = .ok c ∧
      c.return_rate = none ∧ dietzAnnualizedRate c = none ∧ c.note ≠ "" := by
  have h1 : ¬ daysBetween bd ed < 0 := by omega
  have h2 : ¬ (daysBetween bd ed = 0 ∧ flag = false) := by
    rintro ⟨h, _⟩
    omega
  have hrr : dietzReturnRate (daysBetween bd ed) (dietzDenominator bd ed bv flows)
      (ev - bv - dietzNetFlow flows) = none := by
    simp only [dietzReturnRate]
    rw [if_neg (by omega), if_pos hcap]
  unfold calculate_modified_dietz
  rw [if_neg h1, if_neg h2]
  refine ⟨_, rfl, hrr, ?_, ?_⟩
  · exact dietzAnnualizedRate_of_rate_none _ hrr
  · show dietzNote (dietzDenominator bd ed bv flows) ≠ ""
    simp only [dietzNote]
    rw [if_pos hcap]
    decide

theorem dietz_nonpositive_capital_no_error_witness :
    (0 : Int) < daysBetween ⟨2026, 1, 1⟩ ⟨2026, 1, 2⟩ ∧
    dietzDenominator ⟨2026, 1, 1⟩ ⟨2026, 1, 2⟩ (-100) [] ≤ 0 ∧
    ∃ c, calculate_modified_dietz ⟨2026, 1, 1⟩ ⟨2026, 1, 2⟩ (-100) 0 [] false = .ok c ∧
      c.return_rate = none ∧ dietzAnnualizedRate c = none ∧ c.note ≠ "" :=
  ⟨by decide, by norm_num [dietzDenominator, dietzWeightedFlow],
    dietz_nonpositive_capital_no_error ⟨2026, 1, 1⟩ ⟨2026, 1, 2⟩ (-100) 0 [] false
      (by decide) (by norm_num [dietzDenominator, dietzWeightedFlow])⟩

/-- C2 counterexample: With the zero-interval flag set, `interval_days = 0`,
and begin value `0` (so the weighted capital is `0 ≤ 0`), the calculation
returns `return_rate = None`, not `0`: the claim "return_rate is exactly 0
regardless of the begin/end values" fails, because the non-positive-capital
branch takes precedence over the zero-interval branch. -/
theorem dietz_zero_interval_counterexample :
    (calculate_modified_dietz ⟨2026, 1, 1⟩ ⟨2026, 1, 1⟩ 0 0 [] true).toOption.map
        ModifiedDietzCalc.return_rate = some none ∧
      some (none : Option ℚ) ≠ some (some (0 : ℚ)) := by
  constructor
  · have h0 : daysBetween ⟨2026, 1, 1⟩ ⟨2026, 1, 1⟩ = 0 := by
      simp [daysBetween]
    simp [calculate_modified_dietz, h0, dietzReturnRate, dietzDenominator,
      dietzWeightedFlow, dietzNetFlow]
    exact ⟨_, rfl, rfl⟩
  · simp

/-- C2 amended: With the zero-interval flag set, `interval_days = 0`, and a
positive begin value (the weighted capital, which at zero interval is exactly
the begin value), the returned `return_rate` is exactly `0` and
`annualized_rate` is `None`, regardless of the end value and flows supplied. -/
theorem dietz_zero_interval_amended (bd ed : Date) (bv ev : Int)
    (flows : List TransferRow)
    (h0 : daysBetween bd ed = 0) (hbv : 0 < bv) :
    ∃ c, calculate_modified_dietz bd ed bv ev flows true = .ok c ∧
      c.return_rate = some 0 ∧ dietzAnnualizedRate c = none := by
  have hden : dietzDenominator bd ed bv flows = (bv : ℚ) := by
    unfold dietzDenominator
    rw [h0, dietzWeightedFlow_of_interval_eq_zero]
    ring
  have hdenpos : ¬ dietzDenominator bd ed bv flows ≤ 0 := by
    rw [hden]
    push_neg
    exact_mod_cast hbv
  have hrr : dietzReturnRate (daysBetween bd ed) (dietzDenominator bd ed bv flows)
      (ev - bv - dietzNetFlow flows) = some 0 := by
    simp only [dietzReturnRate]
    rw [if_pos h0, if_neg hdenpos]
  unfold calculate_modified_dietz
  rw [if_neg (by omega), if_neg (by simp [h0])]
  exact ⟨_, rfl, hrr, dietzAnnualizedRate_of_zero_interval _ 0 hrr h0⟩

theorem dietz_zero_interval_amended_witness :
    daysBetween ⟨2026, 1, 1⟩ ⟨2026, 1, 1⟩ = 0 ∧ (0 : Int) < 100 ∧
    ∃ c, calculate_modified_dietz ⟨2026, 1, 1⟩ ⟨2026, 1, 1⟩ 100 50
        [⟨⟨2026, 1, 1⟩, 7⟩] true = .ok c ∧
      c.return_rate = some 0 ∧ dietzAnnualizedRate c = none :=
  ⟨by decide, by decide,
    dietz_zero_interval_amended ⟨2026, 1, 1⟩ ⟨2026, 1, 1⟩ 100 50 [⟨⟨2026, 1, 1⟩, 7⟩]
      (by decide) (by decide)⟩

/-- C4: With a positive interval, an empty flow list (hence `net_flow = 0`)
and a positive begin value, Modified Dietz collapses exactly to the simple
return `end_value / begin_value - 1`. -/
theorem dietz_no_flow_simple_return (bd ed : Date) (bv ev : Int) (flag : Bool)
    (hpos : 0 < daysBetween bd ed) (hbv : 0 < bv) :
    ∃ c, calculate_modified_dietz bd ed bv ev [] flag = .ok c ∧
      c.return_rate = some ((ev : ℚ) / (bv : ℚ) - 1) := by
  have hden : dietzDenominator bd ed bv [] = (bv : ℚ) := by
    unfold dietzDenominator dietzWeightedFlow
    simp
  have hbvq : (0 : ℚ) < (bv : ℚ) := by exact_mod_cast hbv
  have hdenpos : ¬ dietzDenominator bd ed bv [] ≤ 0 := by
    rw [hden]
    push_neg
    exact hbvq
  have hrr : dietzReturnRate (daysBetween bd ed) (dietzDenominator bd ed bv [])
      (ev - bv - dietzNetFlow []) = some ((ev : ℚ) / (bv : ℚ) - 1) := by
    simp only [dietzReturnRate]
    rw [if_neg (by omega), if_neg hdenpos, hden]
    have hnf : dietzNetFlow [] = 0 := rfl
    rw [hnf]
    congr 1
    push_cast
    field_simp
  unfold calculate_modified_dietz
  rw [if_neg (by omega), if_neg (by rintro ⟨h, _⟩; omega)]
  exact ⟨_, rfl, hrr⟩

theorem dietz_no_flow_simple_return_witness :
    (0 : Int) < daysBetween ⟨2026, 1, 1⟩ ⟨2026, 3, 1⟩ ∧ (0 : Int) < 200 ∧
    ∃ c, calculate_modified_dietz ⟨2026, 1, 1⟩ ⟨2026, 3, 1⟩ 200 250 [] false = .ok c ∧
      c.return_rate = some ((250 : ℚ) / (200 : ℚ) - 1) :=
  ⟨by decide, by decide,
    dietz_no_flow_simple_return ⟨2026, 1, 1⟩ ⟨2026, 3, 1⟩ 200 250 false
      (by decide) (by decide)⟩

/-! ## Window Resolver (`resolve_window`) -/

/-- Model of `parse_iso_date` on an optional raw input: an absent (empty) string fails
with "缺少字段: …"; a present one is already a parsed date in this model. -/
def parseOptDate (raw : Option Date) (field : String) : Except String Date :=
  match raw with
  | none => .error ("缺少字段: " ++ field)
  | some d => .ok d

/-- The resolved `Window` record. -/
structure Window where
  requested_from : Date
  effective_from : Date
  effective_to : Date
  latest : Date
deriving DecidableEq, Repr

/-- Model of `effective_to`: the requested `to` (defaulting to `latest`) clipped to not
exceed `latest`. -/
def effectiveTo (to_raw : Option Date) (latest : Date) : Date :=
  if to_raw.getD latest < latest then to_raw.getD latest else latest

/-- The per-preset `requested_from` match of `resolve_window` (`ytd` uses
`from_ymd_opt(year, 1, 1)`, which never fails for a representable year). -/
def presetRequestedFrom (preset : String) (from_raw : Option Date)
    (effective_to earliest : Date) : Except String Date :=
  match preset with
  | "custom" => parseOptDate from_raw "from"
  | "ytd" => .ok ⟨effective_to.year, 1, 1⟩
  | "1y" => .ok (effective_to.subDays 365)
  | "3y" => .ok (effective_to.subDays (365 * 3))
  | "since_inception" => .ok earliest
  | other => .error ("preset 不支持: " ++ other)

/-- Model of `resolve_window` from `investment_analytics.rs` (the `wealth_analytics.rs`
copy is textually identical). -/
def resolve_window (preset : String) (from_raw to_raw : Option Date)
    (earliest latest : Date) : Except String Window :=
  if latest < earliest then .error "无可用时间范围"
  else if effectiveTo to_raw latest < earliest then .error "结束日期早于最早可用记录"
  else
    (presetRequestedFrom preset from_raw (effectiveTo to_raw latest) earliest).bind
      fun requested_from =>
        if effectiveTo to_raw latest <
            (if earliest < requested_from then requested_from else earliest) then
          .error "起始日期晚于结束日期"
        else
          .ok ⟨requested_from,
            (if earliest < requested_from then requested_from else earliest),
            effectiveTo to_raw latest, latest⟩

/-- Spec-side clip "not exceeding `b`" (ties keep `b`, as the source's strict
comparison does). -/
def dateMin (a b : Date) : Date := if a < b then a else b

/-- Spec-side clip "not preceding `b`". -/
def dateMax (a b : Date) : Date := if b < a then a else b

lemma date_le_of_not_lt (a b : Date) (h : ¬ a < b) : b ≤ a := Int.not_lt.mp h

lemma date_not_lt_of_le {a b : Date} (h : b ≤ a) : ¬ a < b := Int.not_lt.mpr h

lemma date_lt_of_not_le {a b : Date} (h : ¬ b ≤ a) : a < b := Int.not_le.mp h

/-- C7: Window resolution: on success, `effective_to` is the explicit `to`
(defaulting to `latest`) clipped to not exceed `latest`; `requested_from`
follows the preset (`ytd` = Jan 1 of `effective_to`'s year, `1y` = −365 days,
`3y` = −1095 days, `since_inception` = `earliest`, `custom` = the explicit
`from`); `effective_from` is `requested_from` clipped to not precede
`earliest`, and never exceeds `effective_to` (a clipped `from` past `to` is an
error).  `custom` without an explicit `from` never succeeds.  The three
literal examples of the spec hold. -/
theorem resolve_window_spec :
    (∀ (preset : String) (from_raw to_raw : Option Date) (earliest latest : Date) (w : Window),
      resolve_window preset from_raw to_raw earliest latest = .ok w →
        w.effective_to = dateMin (to_raw.getD latest) latest ∧
        w.effective_from = dateMax w.requested_from earliest ∧
        w.effective_from ≤ w.effective_to ∧
        (preset = "ytd" → w.requested_from = ⟨w.effective_to.year, 1, 1⟩) ∧
        (preset = "1y" → w.requested_from = w.effective_to.subDays 365) ∧
        (preset = "3y" → w.requested_from = w.effective_to.subDays 1095) ∧
        (preset = "since_inception" → w.requested_from = earliest) ∧
        (preset = "custom" → from_raw = some w.requested_from)) ∧
    (∀ (to_raw : Option Date) (earliest latest : Date) (w : Window),
      resolve_window "custom" none to_raw earliest latest ≠ .ok w) ∧
    resolve_window "1y" none none ⟨2024, 1, 1⟩ ⟨2026, 3, 31⟩ =
      .ok ⟨⟨2025, 3, 31⟩, ⟨2025, 3, 31⟩, ⟨2026, 3, 31⟩, ⟨2026, 3, 31⟩⟩ ∧
    (∃ w, resolve_window "ytd" none (some ⟨2026, 2, 10⟩) ⟨2024, 1, 1⟩ ⟨2026, 3, 31⟩ = .ok w ∧
      w.effective_from = ⟨2026, 1, 1⟩) ∧
    (∃ e, resolve_window "custom" none none ⟨2024, 1, 1⟩ ⟨2026, 3, 31⟩ = .error e) := by
  refine ⟨?_, ?_, ?_, ?_, ?_⟩
  · intro preset from_raw to_raw earliest latest w h
    unfold resolve_window at h
    split at h
    · simp at h
    split at h
    · simp at h
    cases hpm : presetRequestedFrom preset from_raw (effectiveTo to_raw latest) earliest with
    | error e =>
      rw [hpm] at h
      simp [Except.bind] at h
    | ok rf =>
      rw [hpm] at h
      simp only [Except.bind] at h
      set ef := if earliest < rf then rf else earliest with hef
      split at h
      · simp at h
      · rename_i hguard
        cases h
        refine ⟨rfl, ?_, date_le_of_not_lt _ _ hguard, ?_, ?_, ?_, ?_, ?_⟩
        · show ef = dateMax rf earliest
          simp only [dateMax]
        · intro hp
          subst hp
          simp only [presetRequestedFrom] at hpm
          injection hpm with h1
          exact h1.symm
        · intro hp
          subst hp
          simp only [presetRequestedFrom] at hpm
          injection hpm with h1
          exact h1.symm
        · intro hp
          subst hp
          simp only [presetRequestedFrom] at hpm
          have h3 : (365 : Int) * 3 = 1095 := by norm_num
          rw [h3] at hpm
          injection hpm with h1
          exact h1.symm
        · intro hp
          subst hp
          simp only [presetRequestedFrom] at hpm
          injection hpm with h1
          exact h1.symm
        · intro hp
          subst hp
          simp only [presetRequestedFrom] at hpm
          cases from_raw with
          | none => simp [parseOptDate] at hpm
          | some d =>
            simp only [parseOptDate] at hpm
            injection hpm with h1
            rw [h1]
  · intro to_raw earliest latest w h
    unfold resolve_window at h
    split at h
    · simp at h
    split at h
    · simp at h
    simp [presetRequestedFrom, parseOptDate, Except.bind] at h
  · rfl
  · exact ⟨_, rfl, rfl⟩
  · exact ⟨_, rfl⟩

theorem resolve_window_spec_witness :
    Window.effective_to ⟨⟨2025, 3, 31⟩, ⟨2025, 3, 31⟩, ⟨2026, 3, 31⟩, ⟨2026, 3, 31⟩⟩ =
      dateMin ((none : Option Date).getD ⟨2026, 3, 31⟩) ⟨2026, 3, 31⟩ :=
  (resolve_window_spec.1 "1y" none none ⟨2024, 1, 1⟩ ⟨2026, 3, 31⟩
    ⟨⟨2025, 3, 31⟩, ⟨2025, 3, 31⟩, ⟨2026, 3, 31⟩, ⟨2026, 3, 31⟩⟩ (by rfl)).1

/-! ## As-Of Aggregator (`build_asof_totals` / `build_portfolio_asof_totals`)

The source builds a `HashMap` keyed by the formatted queried dates (initialised
to `0`), groups the history rows by account, sorts each account's series by
`snapshot_date` (`sort_by_key`), and for each account walks the queried dates
with a cursor, adding the held current value into the per-date total.  Here the
totals are positional: `build_asof_totals dates rows` is the list of totals
aligned with `dates`.  All call sites pass `dates` sorted strictly ascending
(`sort_unstable` + `dedup`), under which the two representations agree; the
data model guarantees at most one snapshot per `(account, date)`, under which
any date-sort agrees with the source's stable sort. -/

/-- A history row (`AsOfHistoryRow` in `wealth_analytics.rs`;
`PortfolioHistoryRow` in `investment_analytics.rs` has the same fields). -/
structure AsOfHistoryRow where
  account_id : String
  snapshot_date : Date
  value_cents : Int
  flow_cents : Int
deriving DecidableEq, Repr

/-- One cursor step: the "value = 0 with nonzero flow while a positive value is
held" compatibility rule retains the previous value; otherwise the snapshot's
value is taken. -/
def asofStep (current : Int) (r : AsOfHistoryRow) : Int :=
  if r.value_cents = 0 ∧ r.flow_cents ≠ 0 ∧ 0 < current then current else r.value_cents

/-- Model of `sort_by_key(|r| r.snapshot_date)` comparison. -/
def rowLe (a b : AsOfHistoryRow) : Prop :=
  a.snapshot_date.toRata ≤ b.snapshot_date.toRata

instance : DecidableRel rowLe := fun a b =>
  inferInstanceAs (Decidable (a.snapshot_date.toRata ≤ b.snapshot_date.toRata))

instance : IsTotal AsOfHistoryRow rowLe := ⟨fun a b => Int.le_total _ _⟩

instance : IsTrans AsOfHistoryRow rowLe := ⟨fun _ _ _ hab hbc => Int.le_trans hab hbc⟩

/-- The per-account cursor walk over the queried dates: at each date the cursor
consumes every not-yet-consumed row with `snapshot_date ≤ d` (the source's
`while idx < series.len() && series[idx].snapshot_date <= *d` loop) and emits
the held current value. -/
def walkSeries : List AsOfHistoryRow → Int → List Date → List Int
  | _, _, [] => []
  | series, current, d :: rest =>
    (series.takeWhile (fun r => r.snapshot_date ≤ d)).foldl asofStep current ::
      walkSeries (series.dropWhile (fun r => r.snapshot_date ≤ d))
        ((series.takeWhile (fun r => r.snapshot_date ≤ d)).foldl asofStep current) rest

/-- The sorted series of one account (`by_account` grouping + `sort_by_key`). -/
def seriesFor (rows : List AsOfHistoryRow) (acct : String) : List AsOfHistoryRow :=
  List.insertionSort rowLe (rows.filter (fun r => r.account_id = acct))

/-- The account keys of the grouping map. -/
def accountIds (rows : List AsOfHistoryRow) : List String :=
  (rows.map (·.account_id)).dedup

/-- Model of `build_asof_totals` from `wealth_analytics.rs`: per-date totals, aligned
positionally with `dates`. -/
def build_asof_totals (dates : List Date) (rows : List AsOfHistoryRow) : List Int :=
  (accountIds rows).foldl
    (fun acc acct => List.zipWith (· + ·) acc (walkSeries (seriesFor rows acct) 0 dates))
    (dates.map fun _ => 0)

/-- Model of `build_portfolio_asof_totals` from `investment_analytics.rs` is the same
algorithm over rows with the same fields. -/
def build_portfolio_asof_totals (dates : List Date) (rows : List AsOfHistoryRow) : List Int :=
  build_asof_totals dates rows

lemma walkSeries_length (dates : List Date) :
    ∀ (s : List AsOfHistoryRow) (c : Int), (walkSeries s c dates).length = dates.length := by
  induction dates with
  | nil => intro s c; rfl
  | cons d rest ih =>
    intro s c
    simp only [walkSeries, List.length_cons, ih]

lemma getD_zipWith_add (xs ys : List Int) (i : Nat) (hx : i < xs.length) (hy : i < ys.length) :
    (List.zipWith (· + ·) xs ys).getD i 0 = xs.getD i 0 + ys.getD i 0 := by
  induction xs generalizing ys i with
  | nil => simp at hx
  | cons x xt ih =>
    cases ys with
    | nil => simp at hy
    | cons y yt =>
      cases i with
      | zero => simp
      | succ j =>
        simp only [List.zipWith_cons_cons, List.getD_cons_succ]
        exact ih yt j (by simpa using hx) (by simpa using hy)

lemma foldl_zipWith_getD (f : String → List Int) (n : Nat) (hf : ∀ a, (f a).length = n)
    (accts : List String) :
    ∀ (acc : List Int), acc.length = n → ∀ i, i < n →
      (accts.foldl (fun acc a => List.zipWith (· + ·) acc (f a)) acc).getD i 0 =
        acc.getD i 0 + ((accts.map fun a => (f a).getD i 0).sum) := by
  induction accts with
  | nil => intro acc _ i _; simp
  | cons a t ih =>
    intro acc hacc i hi
    rw [List.foldl_cons]
    rw [ih (List.zipWith (· + ·) acc (f a))
      (by rw [List.length_zipWith, hacc, hf a]; omega) i hi]
    rw [getD_zipWith_add acc (f a) i (by omega) (by rw [hf a]; omega)]
    simp [add_assoc]

lemma getD_map_zero (l : List Date) (i : Nat) :
    (l.map fun _ => (0 : Int)).getD i 0 = 0 := by
  induction l generalizing i with
  | nil => simp
  | cons d t ih =>
    cases i with
    | zero => simp
    | succ j => simpa using ih j

/-- Positional totals are the per-account walk values summed over accounts. -/
lemma build_asof_totals_getD (dates : List Date) (rows : List AsOfHistoryRow)
    (i : Nat) (hi : i < dates.length) :
    (build_asof_totals dates rows).getD i 0 =
      ((accountIds rows).map fun a => (walkSeries (seriesFor rows a) 0 dates).getD i 0).sum := by
  unfold build_asof_totals
  rw [foldl_zipWith_getD (fun a => walkSeries (seriesFor rows a) 0 dates) dates.length
    (fun a => walkSeries_length dates _ 0) (accountIds rows) (dates.map fun _ => 0)
    (by simp) i hi]
  rw [getD_map_zero, zero_add]

lemma sorted_takeWhile_le_eq_filter (d : Date) :
    ∀ (s : List AsOfHistoryRow), s.Pairwise rowLe →
      s.takeWhile (fun r => r.snapshot_date ≤ d) = s.filter (fun r => r.snapshot_date ≤ d) := by
  intro s
  induction s with
  | nil => intro _; rfl
  | cons r t ih =>
    intro hs
    rw [List.pairwise_cons] at hs
    by_cases h : r.snapshot_date ≤ d
    · simp only [List.takeWhile_cons, List.filter_cons]
      rw [if_pos (by simpa using h), if_pos (by simpa using h), ih hs.2]
    · simp only [List.takeWhile_cons, List.filter_cons]
      rw [if_neg (by simpa using h), if_neg (by simpa using h)]
      symm
      rw [List.filter_eq_nil_iff]
      intro x hx
      have hrx : rowLe r x := hs.1 x hx
      simp only [decide_eq_true_eq]
      intro hxd
      exact h (Int.le_trans hrx hxd)

lemma filter_dropWhile_of_le (d D : Date) (hdD : d.toRata ≤ D.toRata) :
    ∀ (s : List AsOfHistoryRow), s.Pairwise rowLe →
      s.filter (fun r => r.snapshot_date ≤ D) =
        s.takeWhile (fun r => r.snapshot_date ≤ d) ++
          (s.dropWhile (fun r => r.snapshot_date ≤ d)).filter (fun r => r.snapshot_date ≤ D) := by
  intro s hs
  conv_lhs => rw [← List.takeWhile_append_dropWhile (p := fun r => decide (r.snapshot_date ≤ d)) (l := s)]
  rw [List.filter_append]
  congr 1
  rw [List.filter_eq_self]
  intro x hx
  have hxd : x.snapshot_date ≤ d := by
    have := List.mem_takeWhile_imp hx
    simpa using this
  simp only [decide_eq_true_eq]
  exact Int.le_trans hxd hdD

/-- Cursor walk characterisation: for a date-sorted series and strictly
ascending queried dates, the emitted value at index `i` is the fold of
`asofStep` over the rows dated at or before `dates[i]`. -/
lemma walkSeries_getD (dates : List Date) :
    ∀ (s : List AsOfHistoryRow) (c : Int), s.Pairwise rowLe →
      dates.Pairwise (· < ·) →
      ∀ i, i < dates.length →
        (walkSeries s c dates).getD i 0 =
          (s.filter (fun r => r.snapshot_date ≤ dates.getD i default)).foldl asofStep c := by
  induction dates with
  | nil => intro s c _ _ i hi; simp at hi
  | cons d rest ih =>
    intro s c hs hd i hi
    rw [List.pairwise_cons] at hd
    cases i with
    | zero =>
      simp only [walkSeries, List.getD_cons_zero]
      rw [sorted_takeWhile_le_eq_filter d s hs]
    | succ j =>
      simp only [walkSeries, List.getD_cons_succ]
      have hj : j < rest.length := by simpa using hi
      have hdrop : (s.dropWhile (fun r => r.snapshot_date ≤ d)).Pairwise rowLe :=
        hs.sublist (List.dropWhile_sublist _)
      rw [ih _ _ hdrop hd.2 j hj]
      have hD : d.toRata ≤ (rest.getD j default).toRata := by
        have hmem : rest.getD j default ∈ rest := by
          rw [List.getD_eq_getElem rest default hj]
          exact List.getElem_mem hj
        exact Int.le_of_lt (hd.1 _ hmem)
      rw [filter_dropWhile_of_le d (rest.getD j default) hD s hs, List.foldl_append]

/-- C5: Step-function law: a single entity with one snapshot `(d0, v)`
yields totals `0` at every queried date before `d0` and `v` at every queried
date at or after `d0`, for any flow on that snapshot; moreover one cursor step
on a row with `value = 0` and nonzero flow while a positive current value is
held leaves the current value unchanged. -/
theorem asof_single_snapshot_step_law :
    (∀ (acct : String) (d0 : Date) (v f : Int) (dates : List Date),
      dates.Pairwise (· < ·) →
      ∀ i, i < dates.length →
        (build_asof_totals dates [⟨acct, d0, v, f⟩]).getD i 0 =
          if dates.getD i default < d0 then 0 else v) ∧
    (∀ (current : Int) (r : AsOfHistoryRow),
      r.value_cents = 0 → r.flow_cents ≠ 0 → 0 < current → asofStep current r = current) := by
  constructor
  · intro acct d0 v f dates hd i hi
    rw [build_asof_totals_getD dates _ i hi]
    have hids : accountIds [⟨acct, d0, v, f⟩] = [acct] := by
      simp [accountIds]
    rw [hids]
    have hser : seriesFor [⟨acct, d0, v, f⟩] acct = [⟨acct, d0, v, f⟩] := by
      simp [seriesFor, List.insertionSort]
    simp only [List.map_cons, List.map_nil, List.sum_cons, List.sum_nil, add_zero]
    rw [hser, walkSeries_getD dates _ 0 (by simp) hd i hi]
    by_cases h : d0 ≤ dates.getD i default
    · rw [if_neg (date_not_lt_of_le h)]
      rw [List.filter_cons]
      rw [if_pos (by simpa using h)]
      simp [asofStep]
    · rw [if_pos (date_lt_of_not_le h)]
      rw [List.filter_cons]
      rw [if_neg (by simpa using h)]
      rfl
  · intro current r h0 hf hc
    unfold asofStep
    rw [if_pos ⟨h0, hf, hc⟩]

theorem asof_single_snapshot_step_law_witness :
    ((build_asof_totals [⟨2026, 1, 1⟩, ⟨2026, 1, 5⟩] [⟨"a", ⟨2026, 1, 3⟩, 42, 7⟩]).getD 0 0 =
      if (⟨2026, 1, 1⟩ : Date) < ⟨2026, 1, 3⟩ then 0 else 42) ∧
    ((build_asof_totals [⟨2026, 1, 1⟩, ⟨2026, 1, 5⟩] [⟨"a", ⟨2026, 1, 3⟩, 42, 7⟩]).getD 1 0 =
      if (⟨2026, 1, 5⟩ : Date) < ⟨2026, 1, 3⟩ then 0 else 42) ∧
    asofStep 9 ⟨"a", ⟨2026, 1, 3⟩, 0, 5⟩ = 9 :=
  ⟨asof_single_snapshot_step_law.1 "a" ⟨2026, 1, 3⟩ 42 7 [⟨2026, 1, 1⟩, ⟨2026, 1, 5⟩]
      (by decide) 0 (by decide),
    asof_single_snapshot_step_law.1 "a" ⟨2026, 1, 3⟩ 42 7 [⟨2026, 1, 1⟩, ⟨2026, 1, 5⟩]
      (by decide) 1 (by decide),
    asof_single_snapshot_step_law.2 9 ⟨"a", ⟨2026, 1, 3⟩, 0, 5⟩ (by decide) (by decide)
      (by decide)⟩

lemma orderedInsert_of_forall_le (x : AsOfHistoryRow) (m : List AsOfHistoryRow)
    (h : ∀ z ∈ m, rowLe x z) : List.orderedInsert rowLe x m = x :: m := by
  cases m with
  | nil => rfl
  | cons z t => exact List.orderedInsert_of_le rowLe t (h z (by simp))

lemma filter_orderedInsert (p : AsOfHistoryRow → Bool) (x : AsOfHistoryRow) :
    ∀ l : List AsOfHistoryRow, l.Pairwise rowLe →
      (List.orderedInsert rowLe x l).filter p =
        if p x then List.orderedInsert rowLe x (l.filter p) else l.filter p := by
  intro l
  induction l with
  | nil =>
    intro _
    by_cases hx : p x <;> simp [List.orderedInsert, hx]
  | cons y t ih =>
    intro hl
    rw [List.pairwise_cons] at hl
    by_cases hxy : rowLe x y
    · rw [List.orderedInsert_of_le rowLe t hxy]
      by_cases hx : p x
      · rw [if_pos hx]
        by_cases hy : p y
        · rw [List.filter_cons_of_pos (by simpa using hx), List.filter_cons_of_pos
            (by simpa using hy)]
          exact (List.orderedInsert_of_le rowLe _ hxy).symm
        · rw [List.filter_cons_of_pos (by simpa using hx), List.filter_cons_of_neg
            (by simpa using hy)]
          refine (orderedInsert_of_forall_le x _ fun z hz => ?_).symm
          have hz' : z ∈ t := List.mem_of_mem_filter hz
          exact Int.le_trans hxy (hl.1 z hz')
      · rw [if_neg hx]
        rw [List.filter_cons_of_neg (by simpa using hx)]
    · rw [List.orderedInsert]
      rw [if_neg hxy]
      by_cases hy : p y
      · rw [List.filter_cons_of_pos (by simpa using hy), List.filter_cons_of_pos
          (by simpa using hy), ih hl.2]
        by_cases hx : p x
        · rw [if_pos hx, if_pos hx]
          rw [List.orderedInsert]
          rw [if_neg hxy]
        · rw [if_neg hx, if_neg hx]
      · rw [List.filter_cons_of_neg (by simpa using hy), List.filter_cons_of_neg
          (by simpa using hy), ih hl.2]

lemma filter_insertionSort (p : AsOfHistoryRow → Bool) :
    ∀ l : List AsOfHistoryRow,
      (List.insertionSort rowLe l).filter p = List.insertionSort rowLe (l.filter p) := by
  intro l
  induction l with
  | nil => rfl
  | cons x t ih =>
    simp only [List.insertionSort]
    rw [filter_orderedInsert p x _ (List.sorted_insertionSort rowLe t)]
    rw [List.filter_cons]
    by_cases hx : p x
    · rw [if_pos hx, if_pos (by simpa using hx)]
      simp only [List.insertionSort]
      rw [ih]
    · rw [if_neg hx, if_neg (by simpa using hx), ih]

lemma seriesFor_append_single (rows : List AsOfHistoryRow) (newRow : AsOfHistoryRow)
    (a : String) (D : Date) (hnew : ¬ newRow.snapshot_date ≤ D) :
    (seriesFor (rows ++ [newRow]) a).filter (fun r => r.snapshot_date ≤ D) =
      (seriesFor rows a).filter (fun r => r.snapshot_date ≤ D) := by
  unfold seriesFor
  rw [filter_insertionSort, filter_insertionSort]
  congr 1
  rw [List.filter_append, List.filter_append]
  by_cases ha : newRow.account_id = a
  · have h1 : ([newRow].filter fun r => r.account_id = a) = [newRow] := by
      simp [ha]
    rw [h1]
    have h2 : ([newRow].filter fun r => r.snapshot_date ≤ D) = [] := by
      simp [hnew]
    rw [h2, List.append_nil]
  · have h1 : ([newRow].filter fun r => r.account_id = a) = [] := by
      simp [ha]
    rw [h1]
    simp

/-- C6: No-look-ahead: appending a snapshot row dated strictly later than a
queried date never changes the total computed at that date. -/
theorem asof_no_look_ahead (dates : List Date) (rows : List AsOfHistoryRow)
    (newRow : AsOfHistoryRow) (hsorted : dates.Pairwise (· < ·)) :
    ∀ i, i < dates.length → dates.getD i default < newRow.snapshot_date →
      (build_asof_totals dates (rows ++ [newRow])).getD i 0 =
        (build_asof_totals dates rows).getD i 0 := by
  intro i hi hlt
  have hnew : ¬ newRow.snapshot_date ≤ dates.getD i default := Int.not_le.mpr hlt
  rw [build_asof_totals_getD _ _ i hi, build_asof_totals_getD _ _ i hi]
  have hpoint : ∀ a : String,
      (walkSeries (seriesFor (rows ++ [newRow]) a) 0 dates).getD i 0 =
        (walkSeries (seriesFor rows a) 0 dates).getD i 0 := by
    intro a
    have hs1 : (seriesFor (rows ++ [newRow]) a).Pairwise rowLe := by
      unfold seriesFor
      exact List.sorted_insertionSort rowLe _
    have hs2 : (seriesFor rows a).Pairwise rowLe := by
      unfold seriesFor
      exact List.sorted_insertionSort rowLe _
    rw [walkSeries_getD dates _ 0 hs1 hsorted i hi,
      walkSeries_getD dates _ 0 hs2 hsorted i hi]
    rw [seriesFor_append_single rows newRow a _ hnew]
  simp only [hpoint]
  by_cases hmem : newRow.account_id ∈ accountIds rows
  · have hperm : List.Perm (accountIds (rows ++ [newRow])) (accountIds rows) := by
      refine (List.perm_ext_iff_of_nodup ?_ ?_).mpr ?_
      · exact List.nodup_dedup _
      · exact List.nodup_dedup _
      intro a
      simp only [accountIds, List.mem_dedup, List.map_append, List.mem_append,
        List.map_cons, List.map_nil, List.mem_singleton] at hmem ⊢
      constructor
      · rintro (h | h)
        · exact h
        · rw [h]; exact hmem
      · intro h
        exact Or.inl h
    exact (hperm.map _).sum_eq
  · have hperm :
        List.Perm (accountIds (rows ++ [newRow])) (newRow.account_id :: accountIds rows) := by
      refine (List.perm_ext_iff_of_nodup ?_ ?_).mpr ?_
      · exact List.nodup_dedup _
      · exact List.Nodup.cons (by simpa [accountIds] using hmem) (List.nodup_dedup _)
      intro a
      simp only [accountIds, List.mem_dedup, List.map_append, List.mem_append,
        List.map_cons, List.map_nil, List.mem_singleton, List.mem_cons]
      tauto
    rw [(hperm.map _).sum_eq]
    have hempty : seriesFor rows newRow.account_id = [] := by
      unfold seriesFor
      have : rows.filter (fun r => r.account_id = newRow.account_id) = [] := by
        rw [List.filter_eq_nil_iff]
        intro r hr
        simp only [decide_eq_true_eq]
        intro heq
        exact hmem (by simp [accountIds, List.mem_dedup]; exact ⟨r, hr, heq⟩)
      rw [this]
      rfl
    rw [List.map_cons, List.sum_cons, hempty]
    have hzero : (walkSeries ([] : List AsOfHistoryRow) 0 dates).getD i 0 = 0 := by
      rw [walkSeries_getD dates [] 0 (by simp) hsorted i hi]
      rfl
    rw [hzero, zero_add]

theorem asof_no_look_ahead_witness :
    (build_asof_totals [⟨2026, 1, 1⟩, ⟨2026, 1, 5⟩]
        ([⟨"a", ⟨2026, 1, 2⟩, 10, 0⟩] ++ [⟨"b", ⟨2026, 1, 9⟩, 50, 0⟩])).getD 1 0 =
      (build_asof_totals [⟨2026, 1, 1⟩, ⟨2026, 1, 5⟩] [⟨"a", ⟨2026, 1, 2⟩, 10, 0⟩]).getD 1 0 :=
  asof_no_look_ahead [⟨2026, 1, 1⟩, ⟨2026, 1, 5⟩] [⟨"a", ⟨2026, 1, 2⟩, 10, 0⟩]
    ⟨"b", ⟨2026, 1, 9⟩, 50, 0⟩ (by decide) 1 (by decide) (by decide)

/-! ## Wealth Compositor (`wealth_overview_query_at_db_path`)

The SQL loads are modelled as list operations over in-memory tables: the
"latest snapshot per account (resp. per account × asset_class) at or before
`as_of`" subquery becomes `pickLatest` over a filtered table.  The data model
(one snapshot per account and date) makes the latest row unique.  `ORDER BY`
clauses and the `*_yuan` text fields are presentational and omitted. -/

/-- A row of the `investment_records` table. -/
structure InvRecord where
  account_id : String
  snapshot_date : Date
  total_assets_cents : Int
  transfer_amount_cents : Int
deriving DecidableEq, Repr

/-- A row of the `accounts` table (only the fields this module reads). -/
structure AccountRow where
  id : String
  name : String
deriving DecidableEq, Repr

/-- A row of the `account_valuations` table. -/
structure AccountValuation where
  account_id : String
  account_name : String
  asset_class : String
  snapshot_date : Date
  value_cents : Int
deriving DecidableEq, Repr

/-- Model of `OverviewItemRow` from `wealth_analytics.rs`. -/
structure OverviewItemRow where
  account_id : String
  account_name : String
  snapshot_date : Date
  value_cents : Int
deriving DecidableEq, Repr

/-- Model of `AssetValuationRow` from `wealth_analytics.rs`. -/
structure AssetValuationRow where
  account_id : String
  account_name : String
  asset_class : String
  snapshot_date : Date
  value_cents : Int
deriving DecidableEq, Repr

/-- One emitted overview row (JSON object in the source, yuan text omitted). -/
structure OverviewItem where
  asset_class : String
  account_id : String
  account_name : String
  snapshot_date : Date
  value_cents : Int
  stale_days : Int
deriving DecidableEq, Repr

/-- Model of `WealthFilters` from `wealth_analytics.rs`. -/
structure WealthFilters where
  include_investment : Bool
  include_cash : Bool
  include_real_estate : Bool
  include_liability : Bool
deriving DecidableEq, Repr

/-- Model of `COALESCE(a.name, r.account_id)`. -/
def nameOf (accounts : List AccountRow) (aid : String) : String :=
  match accounts.find? (fun a => a.id == aid) with
  | some a => a.name
  | none => aid

/-- Model of `MAX(snapshot_date)` row selection (unique under the one-snapshot-per-date
data-model invariant; ties keep the first row). -/
def pickLatest {α : Type} (dateOf : α → Date) (l : List α) : Option α :=
  l.foldl
    (fun acc r =>
      match acc with
      | none => some r
      | some s => if (dateOf s).toRata < (dateOf r).toRata then some r else some s)
    none

/-- Model of `load_overview_investment_rows`: latest positive-value snapshot per
account, at or before `as_of`. -/
def load_overview_investment_rows (inv : List InvRecord) (accounts : List AccountRow)
    (as_of : Date) : List OverviewItemRow :=
  ((inv.map (·.account_id)).dedup).filterMap fun aid =>
    (pickLatest (·.snapshot_date)
        (inv.filter fun r =>
          r.account_id = aid ∧ r.snapshot_date ≤ as_of ∧ 0 < r.total_assets_cents)).map
      fun r => ⟨aid, nameOf accounts aid, r.snapshot_date, r.total_assets_cents⟩

/-- Model of `load_overview_asset_rows`: latest snapshot per (account, asset_class), at
or before `as_of` (no positivity condition here). -/
def load_overview_asset_rows (vals : List AccountValuation) (as_of : Date) :
    List AssetValuationRow :=
  ((vals.map fun v => (v.account_id, v.asset_class)).dedup).filterMap fun key =>
    (pickLatest (·.snapshot_date)
        (vals.filter fun v =>
          v.account_id = key.1 ∧ v.asset_class = key.2 ∧ v.snapshot_date ≤ as_of)).map
      fun v => ⟨v.account_id, v.account_name, v.asset_class, v.snapshot_date, v.value_cents⟩

/-- Model of `map_overview_items` (investment rows → emitted rows with stale_days). -/
def map_overview_items (rows : List OverviewItemRow) (effective_as_of : Date)
    (asset_class : String) : List OverviewItem :=
  rows.map fun row =>
    ⟨asset_class, row.account_id, row.account_name, row.snapshot_date, row.value_cents,
      daysBetween row.snapshot_date effective_as_of⟩

/-- Model of `map_asset_items` (valuation rows → emitted rows with stale_days). -/
def map_asset_items (rows : List AssetValuationRow) (effective_as_of : Date)
    (asset_class : String) : List OverviewItem :=
  rows.map fun row =>
    ⟨asset_class, row.account_id, row.account_name, row.snapshot_date, row.value_cents,
      daysBetween row.snapshot_date effective_as_of⟩

/-- The liability-row test of the cross-check. -/
def isLiabilityItem (r : OverviewItem) : Bool := r.asset_class == "liability"

/-- Sum of the `value_cents` of emitted rows. -/
def sumVals (l : List OverviewItem) : Int := (l.map (·.value_cents)).sum

def cashRowsOf (vals : List AccountValuation) (eff : Date) : List AssetValuationRow :=
  (load_overview_asset_rows vals eff).filter fun r => r.asset_class = "cash"

def realEstateRowsOf (vals : List AccountValuation) (eff : Date) : List AssetValuationRow :=
  (load_overview_asset_rows vals eff).filter fun r => r.asset_class = "real_estate"

def liabilityRowsOf (vals : List AccountValuation) (eff : Date) : List AssetValuationRow :=
  (load_overview_asset_rows vals eff).filter fun r => r.asset_class = "liability"

def investmentTotalOf (inv : List InvRecord) (accounts : List AccountRow) (eff : Date) : Int :=
  ((load_overview_investment_rows inv accounts eff).map (·.value_cents)).sum

def cashTotalOf (vals : List AccountValuation) (eff : Date) : Int :=
  ((cashRowsOf vals eff).map (·.value_cents)).sum

def realEstateTotalOf (vals : List AccountValuation) (eff : Date) : Int :=
  ((realEstateRowsOf vals eff).map (·.value_cents)).sum

def liabilityTotalOf (vals : List AccountValuation) (eff : Date) : Int :=
  ((liabilityRowsOf vals eff).map (·.value_cents)).sum

/-- Model of `gross_assets_total = Σ included non-liability class totals`. -/
def grossAssetsTotalOf (inv : List InvRecord) (accounts : List AccountRow)
    (vals : List AccountValuation) (eff : Date) (filters : WealthFilters) : Int :=
  (if filters.include_investment then investmentTotalOf inv accounts eff else 0) +
    (if filters.include_cash then cashTotalOf vals eff else 0) +
    (if filters.include_real_estate then realEstateTotalOf vals eff else 0)

def selectedLiabilityTotalOf (vals : List AccountValuation) (eff : Date)
    (filters : WealthFilters) : Int :=
  if filters.include_liability then liabilityTotalOf vals eff else 0

/-- The rows actually returned to the caller (`selected_rows`). -/
def selectedRowsOf (inv : List InvRecord) (accounts : List AccountRow)
    (vals : List AccountValuation) (eff : Date) (filters : WealthFilters) : List OverviewItem :=
  (if filters.include_investment then
      map_overview_items (load_overview_investment_rows inv accounts eff) eff "investment"
    else []) ++
    (if filters.include_cash then map_asset_items (cashRowsOf vals eff) eff "cash" else []) ++
    (if filters.include_real_estate then
      map_asset_items (realEstateRowsOf vals eff) eff "real_estate"
    else []) ++
    (if filters.include_liability then
      map_asset_items (liabilityRowsOf vals eff) eff "liability"
    else [])

/-- The `summary` object of the wealth overview (yuan texts omitted). -/
structure WealthSummary where
  investment_total_cents : Int
  cash_total_cents : Int
  real_estate_total_cents : Int
  liability_total_cents : Int
  gross_assets_total_cents : Int
  net_asset_total_cents : Int
  selected_rows_assets_total_cents : Int
  selected_rows_liability_total_cents : Int
  selected_rows_total_cents : Int
  reconciliation_delta_cents : Int
  reconciliation_ok : Bool
  stale_account_count : Nat
deriving DecidableEq, Repr

structure WealthOverviewPayload where
  as_of : Date
  requested_as_of : Date
  filters : WealthFilters
  summary : WealthSummary
  rows : List OverviewItem
deriving DecidableEq, Repr

/-- Assembly of the successful wealth-overview payload (the straight-line code
of `wealth_overview_query_at_db_path` after `effective_as_of` is fixed). -/
def wealthPayloadOf (inv : List InvRecord) (accounts : List AccountRow)
    (vals : List AccountValuation) (requested effective : Date)
    (filters : WealthFilters) : WealthOverviewPayload :=
  { as_of := effective
    requested_as_of := requested
    filters := filters
    summary :=
      { investment_total_cents := investmentTotalOf inv accounts effective
        cash_total_cents := cashTotalOf vals effective
        real_estate_total_cents := realEstateTotalOf vals effective
        liability_total_cents := liabilityTotalOf vals effective
        gross_assets_total_cents := grossAssetsTotalOf inv accounts vals effective filters
        net_asset_total_cents :=
          grossAssetsTotalOf inv accounts vals effective filters -
            selectedLiabilityTotalOf vals effective filters
        selected_rows_assets_total_cents :=
          sumVals ((selectedRowsOf inv accounts vals effective filters).filter
            fun r => !(isLiabilityItem r))
        selected_rows_liability_total_cents :=
          sumVals ((selectedRowsOf inv accounts vals effective filters).filter isLiabilityItem)
        selected_rows_total_cents :=
          sumVals ((selectedRowsOf inv accounts vals effective filters).filter
            fun r => !(isLiabilityItem r)) -
            sumVals ((selectedRowsOf inv accounts vals effective filters).filter isLiabilityItem)
        reconciliation_delta_cents :=
          (sumVals ((selectedRowsOf inv accounts vals effective filters).filter
            fun r => !(isLiabilityItem r)) -
            sumVals ((selectedRowsOf inv accounts vals effective filters).filter
              isLiabilityItem)) -
            (grossAssetsTotalOf inv accounts vals effective filters -
              selectedLiabilityTotalOf vals effective filters)
        reconciliation_ok :=
          decide
            ((sumVals ((selectedRowsOf inv accounts vals effective filters).filter
              fun r => !(isLiabilityItem r)) -
              sumVals ((selectedRowsOf inv accounts vals effective filters).filter
                isLiabilityItem)) -
              (grossAssetsTotalOf inv accounts vals effective filters -
                selectedLiabilityTotalOf vals effective filters) = 0)
        stale_account_count :=
          ((selectedRowsOf inv accounts vals effective filters).filter
            fun r => 0 < r.stale_days).length }
    rows := selectedRowsOf inv accounts vals effective filters }

/-- Model of `MAX(snapshot_date)` over the union of both tables
(`query_latest_union_date`). -/
def latestUnionDate (inv : List InvRecord) (vals : List AccountValuation) : Option Date :=
  (inv.map (·.snapshot_date) ++ vals.map (·.snapshot_date)).foldl
    (fun acc d =>
      match acc with
      | none => some d
      | some m => if m < d then some d else some m)
    none

/-- Model of `wealth_overview_query_at_db_path` over in-memory tables (as-of parsing
modelled by `Option Date`; filter parsing by a given `WealthFilters` record,
with the source's all-false validation check). -/
def wealth_overview_query (inv : List InvRecord) (accounts : List AccountRow)
    (vals : List AccountValuation) (as_of_raw : Option Date) (filters : WealthFilters) :
    Except String WealthOverviewPayload :=
  if ¬ (filters.include_investment ∨ filters.include_cash ∨ filters.include_real_estate ∨
      filters.include_liability) then
    .error "至少需要选择一个资产类型"
  else
    match latestUnionDate inv vals with
    | none => .error "当前没有可用于财富总览的数据"
    | some latest_available =>
      .ok
        (wealthPayloadOf inv accounts vals (as_of_raw.getD latest_available)
          (if as_of_raw.getD latest_available < latest_available then
            as_of_raw.getD latest_available
          else latest_available) filters)

lemma sumVals_append (a b : List OverviewItem) : sumVals (a ++ b) = sumVals a + sumVals b := by
  simp [sumVals]

lemma filter_class_const (p : String → Bool) (cls : String) :
    ∀ l : List OverviewItem, (∀ x ∈ l, x.asset_class = cls) →
      l.filter (fun r => p r.asset_class) = if p cls then l else [] := by
  intro l
  induction l with
  | nil => intro _; split <;> rfl
  | cons x t ih =>
    intro h
    have hx : x.asset_class = cls := h x (by simp)
    have ht := ih fun y hy => h y (List.mem_cons_of_mem _ hy)
    rw [List.filter_cons, ht]
    by_cases hp : p cls
    · rw [if_pos (by rw [hx]; exact hp), if_pos hp, if_pos hp]
    · rw [if_neg (by rw [hx]; exact hp), if_neg hp, if_neg hp]

lemma mem_map_asset_items_class (rows : List AssetValuationRow) (eff : Date) (cls : String) :
    ∀ x ∈ map_asset_items rows eff cls, x.asset_class = cls := by
  intro x hx
  simp only [map_asset_items, List.mem_map] at hx
  obtain ⟨r, _, rfl⟩ := hx
  rfl

lemma mem_map_overview_items_class (rows : List OverviewItemRow) (eff : Date) (cls : String) :
    ∀ x ∈ map_overview_items rows eff cls, x.asset_class = cls := by
  intro x hx
  simp only [map_overview_items, List.mem_map] at hx
  obtain ⟨r, _, rfl⟩ := hx
  rfl

lemma filter_isLiab_map_asset (rows : List AssetValuationRow) (eff : Date) (cls : String) :
    (map_asset_items rows eff cls).filter isLiabilityItem =
      if cls == "liability" then map_asset_items rows eff cls else [] :=
  filter_class_const (fun s => s == "liability") cls _ (mem_map_asset_items_class rows eff cls)

lemma filter_notLiab_map_asset (rows : List AssetValuationRow) (eff : Date) (cls : String) :
    (map_asset_items rows eff cls).filter (fun r => !(isLiabilityItem r)) =
      if !(cls == "liability") then map_asset_items rows eff cls else [] :=
  filter_class_const (fun s => !(s == "liability")) cls _ (mem_map_asset_items_class rows eff cls)

lemma filter_isLiab_map_overview (rows : List OverviewItemRow) (eff : Date) (cls : String) :
    (map_overview_items rows eff cls).filter isLiabilityItem =
      if cls == "liability" then map_overview_items rows eff cls else [] :=
  filter_class_const (fun s => s == "liability") cls _ (mem_map_overview_items_class rows eff cls)

lemma filter_notLiab_map_overview (rows : List OverviewItemRow) (eff : Date) (cls : String) :
    (map_overview_items rows eff cls).filter (fun r => !(isLiabilityItem r)) =
      if !(cls == "liability") then map_overview_items rows eff cls else [] :=
  filter_class_const (fun s => !(s == "liability")) cls _ (mem_map_overview_items_class rows eff cls)

lemma sumVals_nil : sumVals [] = 0 := rfl

lemma sumVals_map_asset (rows : List AssetValuationRow) (eff : Date) (cls : String) :
    sumVals (map_asset_items rows eff cls) = (rows.map (·.value_cents)).sum := by
  simp only [sumVals, map_asset_items, List.map_map]
  rfl

lemma sumVals_map_overview (rows : List OverviewItemRow) (eff : Date) (cls : String) :
    sumVals (map_overview_items rows eff cls) = (rows.map (·.value_cents)).sum := by
  simp only [sumVals, map_overview_items, List.map_map]
  rfl

/-- The cross-check identity: the re-summed selected rows always reproduce
`gross − liability`. -/
lemma selected_delta_eq (inv : List InvRecord) (accounts : List AccountRow)
    (vals : List AccountValuation) (eff : Date) (filters : WealthFilters) :
    sumVals ((selectedRowsOf inv accounts vals eff filters).filter
        fun r => !(isLiabilityItem r)) -
      sumVals ((selectedRowsOf inv accounts vals eff filters).filter isLiabilityItem) =
      grossAssetsTotalOf inv accounts vals eff filters -
        selectedLiabilityTotalOf vals eff filters := by
  unfold selectedRowsOf grossAssetsTotalOf selectedLiabilityTotalOf
  rcases filters with ⟨fi, fc, fr, fl⟩
  cases fi <;> cases fc <;> cases fr <;> cases fl <;>
    simp [List.filter_append, sumVals_append, sumVals_nil, filter_isLiab_map_asset,
      filter_notLiab_map_asset, filter_isLiab_map_overview, filter_notLiab_map_overview,
      sumVals_map_asset, sumVals_map_overview, investmentTotalOf, cashTotalOf,
      realEstateTotalOf, liabilityTotalOf] <;>
    ring

/-- C9: For every successful wealth overview query, the cross-check
fields satisfy: `selected_rows_total` re-sums the returned rows (non-liability
minus liability), `reconciliation_delta = selected_rows_total − net`, the
delta is `0`, and `reconciliation_ok` is exactly the test `delta = 0`. -/
theorem wealth_reconciliation (inv : List InvRecord) (accounts : List AccountRow)
    (vals : List AccountValuation) (as_of_raw : Option Date) (filters : WealthFilters)
    (p : WealthOverviewPayload)
    (h : wealth_overview_query inv accounts vals as_of_raw filters = .ok p) :
    p.summary.selected_rows_total_cents =
        sumVals (p.rows.filter fun r => !(isLiabilityItem r)) -
          sumVals (p.rows.filter isLiabilityItem) ∧
      p.summary.reconciliation_delta_cents =
        p.summary.selected_rows_total_cents - p.summary.net_asset_total_cents ∧
      p.summary.reconciliation_delta_cents = 0 ∧
      p.summary.reconciliation_ok = decide (p.summary.reconciliation_delta_cents = 0) := by
  unfold wealth_overview_query at h
  split at h
  · simp at h
  split at h
  · simp at h
  rename_i latest heq
  cases h
  refine ⟨rfl, rfl, ?_, rfl⟩
  have hdelta := selected_delta_eq inv accounts vals
    (if as_of_raw.getD latest < latest then as_of_raw.getD latest else latest) filters
  simp only [wealthPayloadOf]
  omega

theorem wealth_reconciliation_witness :
    (wealthPayloadOf [⟨"i1", ⟨2026, 1, 2⟩, 100, 0⟩] [⟨"i1", "Broker"⟩]
        [⟨"c1", "Cash", "cash", ⟨2026, 1, 3⟩, 50⟩, ⟨"l1", "Loan", "liability", ⟨2026, 1, 3⟩, 30⟩]
        ⟨2026, 1, 3⟩ ⟨2026, 1, 3⟩ ⟨true, true, true, true⟩).summary.reconciliation_delta_cents =
      0 :=
  (wealth_reconciliation [⟨"i1", ⟨2026, 1, 2⟩, 100, 0⟩] [⟨"i1", "Broker"⟩]
      [⟨"c1", "Cash", "cash", ⟨2026, 1, 3⟩, 50⟩, ⟨"l1", "Loan", "liability", ⟨2026, 1, 3⟩, 30⟩]
      none ⟨true, true, true, true⟩ _ (by rfl)).2.2.1

/-! ## Single-account return pipeline (`investment_analytics.rs`)

The SQL queries of `load_investment_account_bounds`, `select_begin_snapshot`,
`select_end_snapshot` and `load_transfer_rows` are modelled as list operations
over the in-memory `investment_records` table, mirroring each query's `WHERE`
/ `ORDER BY … LIMIT 1` semantics (`pickLatest` / `pickEarliest` select the
`MAX`/`MIN`-dated row, unique under the one-snapshot-per-date invariant). -/

/-- Model of `MIN(snapshot_date)` row selection. -/
def pickEarliest {α : Type} (dateOf : α → Date) (l : List α) : Option α :=
  l.foldl
    (fun acc r =>
      match acc with
      | none => some r
      | some s => if (dateOf r).toRata < (dateOf s).toRata then some r else some s)
    none

def minDateOf (l : List Date) : Option Date :=
  l.foldl
    (fun acc d =>
      match acc with
      | none => some d
      | some m => if d < m then some d else some m)
    none

def maxDateOf (l : List Date) : Option Date :=
  l.foldl
    (fun acc d =>
      match acc with
      | none => some d
      | some m => if m < d then some d else some m)
    none

/-- Model of `AccountBounds` from `investment_analytics.rs`. -/
structure AccountBounds where
  account_name : String
  earliest : Date
  latest : Date
deriving DecidableEq, Repr

/-- Model of `load_investment_account_bounds`: name and min/max snapshot dates of one
account (error when the account has no records). -/
def load_investment_account_bounds (db : List InvRecord) (accounts : List AccountRow)
    (account_id : String) : Except String AccountBounds :=
  match minDateOf ((db.filter fun r => r.account_id = account_id).map (·.snapshot_date)),
      maxDateOf ((db.filter fun r => r.account_id = account_id).map (·.snapshot_date)) with
  | some e, some l => .ok ⟨nameOf accounts account_id, e, l⟩
  | _, _ => .error "未找到该投资账户的记录"

/-- Model of `select_begin_snapshot`: (a) latest positive-value row at or before the
window start; (b) else earliest positive-value row inside the window; (c) else
latest row of any value at or before the window start. -/
def select_begin_snapshot (db : List InvRecord) (account_id : String)
    (window_from window_to : Date) : Option InvRecord :=
  match pickLatest (·.snapshot_date)
      (db.filter fun r =>
        r.account_id = account_id ∧ r.snapshot_date ≤ window_from ∧
          0 < r.total_assets_cents) with
  | some r => some r
  | none =>
    match pickEarliest (·.snapshot_date)
        (db.filter fun r =>
          r.account_id = account_id ∧ window_from ≤ r.snapshot_date ∧
            r.snapshot_date ≤ window_to ∧ 0 < r.total_assets_cents) with
    | some r => some r
    | none =>
      pickLatest (·.snapshot_date)
        (db.filter fun r => r.account_id = account_id ∧ r.snapshot_date ≤ window_from)

/-- Model of `select_end_snapshot`: latest positive-value row in `[begin_date,
window_to]`, else latest row of any value in that range. -/
def select_end_snapshot (db : List InvRecord) (account_id : String)
    (begin_date window_to : Date) : Option InvRecord :=
  match pickLatest (·.snapshot_date)
      (db.filter fun r =>
        r.account_id = account_id ∧ begin_date ≤ r.snapshot_date ∧
          r.snapshot_date ≤ window_to ∧ 0 < r.total_assets_cents) with
  | some r => some r
  | none =>
    pickLatest (·.snapshot_date)
      (db.filter fun r =>
        r.account_id = account_id ∧ begin_date ≤ r.snapshot_date ∧ r.snapshot_date ≤ window_to)

/-- Sort key for record rows (`ORDER BY snapshot_date ASC`). -/
def recLe (a b : InvRecord) : Prop := a.snapshot_date.toRata ≤ b.snapshot_date.toRata

instance : DecidableRel recLe := fun a b =>
  inferInstanceAs (Decidable (a.snapshot_date.toRata ≤ b.snapshot_date.toRata))

/-- Model of `load_transfer_rows`: the nonzero flows strictly inside `(begin_date,
end_date]`, ordered by date. -/
def load_transfer_rows (db : List InvRecord) (account_id : String)
    (begin_date end_date : Date) : List TransferRow :=
  (List.insertionSort recLe
      (db.filter fun r =>
        r.account_id = account_id ∧ begin_date < r.snapshot_date ∧
          r.snapshot_date ≤ end_date ∧ r.transfer_amount_cents ≠ 0)).map
    fun r => ⟨r.snapshot_date, r.transfer_amount_cents⟩

/-- The `range` object of the single-account return payload. -/
structure RangeInfo where
  preset : String
  requested_from : Date
  requested_to : Date
  effective_from : Date
  effective_to : Date
  interval_days : Int
deriving DecidableEq, Repr

/-- The `metrics` object (yuan/pct texts omitted; the annualised rate is the
transcendental companion of the Dietz result, see `dietzAnnualizedRate`). -/
structure ReturnMetrics where
  begin_assets_cents : Int
  end_assets_cents : Int
  net_flow_cents : Int
  profit_cents : Int
  net_growth_cents : Int
  weighted_capital_cents : Int
  return_rate : Option ℚ
  note : String
deriving DecidableEq, Repr

structure SingleReturnPayload where
  account_id : String
  account_name : String
  range : RangeInfo
  metrics : ReturnMetrics
  cash_flows : List CashFlowEntry
deriving DecidableEq, Repr

/-- Model of `build_single_account_investment_return_payload`. -/
def build_single_account_investment_return_payload (db : List InvRecord)
    (accounts : List AccountRow) (account_id : String) (preset : String)
    (from_raw to_raw : Option Date) : Except String SingleReturnPayload :=
  (load_investment_account_bounds db accounts account_id).bind fun bounds =>
    (resolve_window preset from_raw to_raw bounds.earliest bounds.latest).bind fun window =>
      match select_begin_snapshot db account_id window.effective_from window.effective_to with
      | none => .error "区间内没有可用的期初资产记录"
      | some begin_row =>
        match select_end_snapshot db account_id begin_row.snapshot_date window.effective_to with
        | none => .error "区间内没有可用的期末资产记录"
        | some end_row =>
          if end_row.snapshot_date ≤ begin_row.snapshot_date then
            .error "区间内有效快照不足，无法计算收益率"
          else
            (calculate_modified_dietz begin_row.snapshot_date end_row.snapshot_date
                begin_row.total_assets_cents end_row.total_assets_cents
                (load_transfer_rows db account_id begin_row.snapshot_date end_row.snapshot_date)
                false).bind fun mdc =>
              .ok
                { account_id := account_id
                  account_name := bounds.account_name
                  range :=
                    { preset := preset
                      requested_from := window.requested_from
                      requested_to := to_raw.getD window.latest
                      effective_from := begin_row.snapshot_date
                      effective_to := end_row.snapshot_date
                      interval_days := mdc.interval_days }
                  metrics :=
                    { begin_assets_cents := begin_row.total_assets_cents
                      end_assets_cents := end_row.total_assets_cents
                      net_flow_cents := mdc.net_flow_cents
                      profit_cents := mdc.profit_cents
                      net_growth_cents := mdc.profit_cents
                      weighted_capital_cents := mdc.weighted_capital_cents
                      return_rate := mdc.return_rate.map fun v => roundTo v 8
                      note := mdc.note }
                  cash_flows := mdc.cash_flows }

/-! ### The spec's end-to-end literal (C3)

One entity with snapshots (2026-01-01, 100000, flow 0) and (2026-06-30,
120000), plus the 10000 flow dated 2026-04-01 (flows live on snapshot rows, so
the flow is a row dated 2026-04-01; its value column does not enter the
computation). -/

def c3db : List InvRecord :=
  [⟨"acct", ⟨2026, 1, 1⟩, 100000, 0⟩, ⟨"acct", ⟨2026, 4, 1⟩, 110000, 10000⟩,
    ⟨"acct", ⟨2026, 6, 30⟩, 120000, 0⟩]

lemma c3_pipe :
    build_single_account_investment_return_payload c3db [] "acct" "ytd" none none =
      (calculate_modified_dietz ⟨2026, 1, 1⟩ ⟨2026, 6, 30⟩ 100000 120000
          [⟨⟨2026, 4, 1⟩, 10000⟩] false).bind
        (fun mdc =>
          .ok
            { account_id := "acct"
              account_name := "acct"
              range :=
                { preset := "ytd"
                  requested_from := ⟨2026, 1, 1⟩
                  requested_to := ⟨2026, 6, 30⟩
                  effective_from := ⟨2026, 1, 1⟩
                  effective_to := ⟨2026, 6, 30⟩
                  interval_days := mdc.interval_days }
              metrics :=
                { begin_assets_cents := 100000
                  end_assets_cents := 120000
                  net_flow_cents := mdc.net_flow_cents
                  profit_cents := mdc.profit_cents
                  net_growth_cents := mdc.profit_cents
                  weighted_capital_cents := mdc.weighted_capital_cents
                  return_rate := mdc.return_rate.map fun v => roundTo v 8
                  note := mdc.note }
              cash_flows := mdc.cash_flows }) := rfl

lemma c3_calc :
    calculate_modified_dietz ⟨2026, 1, 1⟩ ⟨2026, 6, 30⟩ 100000 120000
        [⟨⟨2026, 4, 1⟩, 10000⟩] false =
      .ok ⟨180, 10000, 10000, 105000, some (2 / 21), "", [⟨⟨2026, 4, 1⟩, 10000, 1 / 2⟩]⟩ := by
  have h180 : daysBetween ⟨2026, 1, 1⟩ ⟨2026, 6, 30⟩ = 180 := by decide
  have h90 : daysBetween ⟨2026, 4, 1⟩ ⟨2026, 6, 30⟩ = 90 := by decide
  have hnf : dietzNetFlow [⟨⟨2026, 4, 1⟩, 10000⟩] = 10000 := rfl
  have hden : dietzDenominator ⟨2026, 1, 1⟩ ⟨2026, 6, 30⟩ 100000 [⟨⟨2026, 4, 1⟩, 10000⟩] =
      105000 := by
    unfold dietzDenominator dietzWeightedFlow dietzWeight
    rw [h180]
    simp only [List.foldl_cons, List.foldl_nil]
    rw [h90]
    norm_num
  have hwc : rustRound (105000 : ℚ) = 105000 := by
    unfold rustRound
    rw [if_pos (by norm_num)]
    exact Int.floor_eq_iff.mpr ⟨by norm_num, by norm_num⟩
  have hrr : dietzReturnRate 180 105000 10000 = some (2 / 21) := by
    unfold dietzReturnRate
    rw [if_neg (by norm_num), if_neg (by norm_num)]
    norm_num
  have hnote : dietzNote (105000 : ℚ) = "" := by
    unfold dietzNote
    rw [if_neg (by norm_num)]
  have hwt : dietzWeight ⟨2026, 6, 30⟩ 180 ⟨2026, 4, 1⟩ = 1 / 2 := by
    unfold dietzWeight
    rw [if_pos (by norm_num), h90]
    norm_num
  have hr6 : roundTo (1 / 2 : ℚ) 6 = 1 / 2 := by
    unfold roundTo rustRound
    rw [if_pos (by norm_num)]
    have hf : ⌊(1 / 2 : ℚ) * 10 ^ 6 + 1 / 2⌋ = 500000 :=
      Int.floor_eq_iff.mpr ⟨by norm_num, by norm_num⟩
    rw [hf]
    norm_num
  have hcf : dietzCashFlows ⟨2026, 6, 30⟩ 180 [⟨⟨2026, 4, 1⟩, 10000⟩] =
      [⟨⟨2026, 4, 1⟩, 10000, 1 / 2⟩] := by
    unfold dietzCashFlows
    simp only [List.filterMap_cons, List.filterMap_nil]
    rw [if_neg (show ¬ (10000 : Int) = 0 by norm_num)]
    rw [hwt, hr6]
  unfold calculate_modified_dietz
  rw [h180]
  rw [if_neg (by norm_num), if_neg (by rintro ⟨h, _⟩; norm_num at h)]
  rw [hnf, hden, hwc, hnote, hcf]
  norm_num
  rw [hrr]

lemma roundTo_c3 : roundTo (2 / 21 : ℚ) 8 = 9523810 / 100000000 := by
  unfold roundTo rustRound
  rw [if_pos (by norm_num)]
  have hf : ⌊(2 / 21 : ℚ) * 10 ^ 8 + 1 / 2⌋ = 9523810 :=
    Int.floor_eq_iff.mpr ⟨by norm_num, by norm_num⟩
  rw [hf]
  norm_num

/-- Shared evaluation of the C3 literal. -/
lemma c3_metrics :
    (build_single_account_investment_return_payload c3db [] "acct" "ytd" none none).toOption.map
        (fun p =>
          (p.range.interval_days, p.metrics.net_flow_cents, p.metrics.profit_cents,
            p.metrics.weighted_capital_cents, p.metrics.return_rate)) =
      some (180, 10000, 10000, 105000, some (9523810 / 100000000 : ℚ)) := by
  rw [c3_pipe, c3_calc]
  simp only [Except.bind, Except.toOption, Option.map_some]
  simp [roundTo_c3]

/-- C3 counterexample: On the spec's literal input the pipeline yields
`interval_days = 180` (not 181), `weighted_capital = 105000` (not ≈ 104972),
and `return_rate ≈ 0.0952381`, which is *not* within `1e-6` of the claimed
`10000 / (100000 + 10000·(90/181)) ≈ 0.09527`. -/
theorem single_return_literal_counterexample :
    (build_single_account_investment_return_payload c3db [] "acct" "ytd" none
          none).toOption.map
        (fun p =>
          (p.range.interval_days, p.metrics.net_flow_cents, p.metrics.profit_cents,
            p.metrics.weighted_capital_cents, p.metrics.return_rate)) =
      some (180, 10000, 10000, 105000, some (9523810 / 100000000 : ℚ)) ∧
      ¬ |(9523810 / 100000000 : ℚ) - 10000 / (100000 + 10000 * (90 / 181))| ≤ 1 / 1000000 := by
  refine ⟨c3_metrics, ?_⟩
  rw [abs_sub_comm]
  rw [abs_of_pos (by norm_num)]
  norm_num

/-- C3 amended: On the spec's literal input: `net_flow = 10000`,
`profit = 10000`, `interval_days = 180` (2026-01-01 → 2026-06-30),
`weighted_capital = 100000 + 10000·(90/180) = 105000`, and the returned
`return_rate` (rounded to 8 digits) is within `1e-6` of `10000/105000`. -/
theorem single_return_literal_amended :
    (build_single_account_investment_return_payload c3db [] "acct" "ytd" none
          none).toOption.map
        (fun p =>
          (p.range.interval_days, p.metrics.net_flow_cents, p.metrics.profit_cents,
            p.metrics.weighted_capital_cents, p.metrics.return_rate)) =
      some (180, 10000, 10000, 105000, some (9523810 / 100000000 : ℚ)) ∧
      |(9523810 / 100000000 : ℚ) - 10000 / 105000| ≤ 1 / 1000000 := by
  refine ⟨c3_metrics, ?_⟩
  rw [abs_of_pos (by norm_num)]
  norm_num

/-! ## Curve Builder (`build_single_account_investment_curve_payload`) -/

/-- One emitted curve row (yuan/pct texts omitted; `cumulative_return_pct` is
the rounded percent form). -/
structure CurveRow where
  snapshot_date : Date
  effective_snapshot_date : Date
  total_assets_cents : Int
  transfer_amount_cents : Int
  cumulative_net_growth_cents : Int
  cumulative_return_rate : Option ℚ
  cumulative_return_pct : Option ℚ
deriving DecidableEq, Repr

/-- The curve `summary` (fields absent in the empty-curve payload are
`Option`al). -/
structure CurveSummary where
  count : Nat
  start_assets_cents : Option Int
  end_assets_cents : Option Int
  change_cents : Int
  change_pct : Option ℚ
  end_net_growth_cents : Int
  end_cumulative_return_rate : Option ℚ
deriving DecidableEq, Repr

structure CurvePayload where
  account_id : String
  account_name : String
  preset : String
  requested_from : Date
  requested_to : Date
  effective_from : Date
  effective_to : Date
  summary : CurveSummary
  rows : List CurveRow
deriving DecidableEq, Repr

/-- Model of `ORDER BY snapshot_date` on plain dates. -/
def dateLeRel (a b : Date) : Prop := a.toRata ≤ b.toRata

instance : DecidableRel dateLeRel := fun a b =>
  inferInstanceAs (Decidable (a.toRata ≤ b.toRata))

/-- The candidate as-of dates: the account's distinct snapshot dates in
`[begin, final_end]`, plus both endpoints, sorted ascending and deduplicated. -/
def candidateDates (db : List InvRecord) (account_id : String)
    (begin_date final_end_date : Date) : List Date :=
  (List.insertionSort dateLeRel
      (((db.filter fun r =>
          r.account_id = account_id ∧ begin_date ≤ r.snapshot_date ∧
            r.snapshot_date ≤ final_end_date).map (·.snapshot_date)) ++
        [begin_date, final_end_date])).dedup

/-- Model of `transfer_by_date` lookup: the summed nonzero flow on one candidate date
(`0` when absent, as `unwrap_or(0)`). -/
def transfer_on (db : List InvRecord) (account_id : String)
    (begin_date final_end_date d : Date) : Int :=
  ((db.filter fun r =>
      r.account_id = account_id ∧ begin_date ≤ r.snapshot_date ∧
        r.snapshot_date ≤ final_end_date ∧ r.transfer_amount_cents ≠ 0 ∧
        r.snapshot_date = d).map (·.transfer_amount_cents)).sum

/-- One iteration of the curve loop: `None` when no end snapshot exists at the
candidate date (the loop's `continue`). -/
def curveRowFor (db : List InvRecord) (account_id : String)
    (begin_date final_end_date : Date) (begin_assets : Int) (point_date : Date) :
    Except String (Option CurveRow) :=
  match select_end_snapshot db account_id begin_date point_date with
  | none => .ok none
  | some per =>
    (calculate_modified_dietz begin_date per.snapshot_date begin_assets per.total_assets_cents
        (load_transfer_rows db account_id begin_date per.snapshot_date) true).map fun pc =>
      some
        { snapshot_date := point_date
          effective_snapshot_date := per.snapshot_date
          total_assets_cents := per.total_assets_cents
          transfer_amount_cents := transfer_on db account_id begin_date final_end_date point_date
          cumulative_net_growth_cents := pc.profit_cents
          cumulative_return_rate := pc.return_rate.map fun v => roundTo v 8
          cumulative_return_pct :=
            (pc.return_rate.map fun v => roundTo v 8).map fun v => roundTo (v * 100) 4 }

/-- The curve loop over all candidate dates. -/
def buildCurveRows (db : List InvRecord) (account_id : String)
    (begin_date final_end_date : Date) (begin_assets : Int) :
    List Date → Except String (List CurveRow)
  | [] => .ok []
  | d :: rest =>
    (curveRowFor db account_id begin_date final_end_date begin_assets d).bind fun r? =>
      (buildCurveRows db account_id begin_date final_end_date begin_assets rest).map fun rs =>
        match r? with
        | none => rs
        | some r => r :: rs

/-- The post-loop emission of `build_single_account_investment_curve_payload`
(lines 954-1045): the explicit empty-curve payload when no rows were produced,
else the summary derived from the first and last rows. -/
def singleCurveFinish (account_id account_name preset : String)
    (requested_from requested_to begin_date final_end_date : Date)
    (rows : List CurveRow) : Except String CurvePayload :=
  match rows with
  | [] =>
    .ok
      { account_id := account_id
        account_name := account_name
        preset := preset
        requested_from := requested_from
        requested_to := requested_to
        effective_from := begin_date
        effective_to := final_end_date
        summary :=
          { count := 0
            start_assets_cents := none
            end_assets_cents := none
            change_cents := 0
            change_pct := none
            end_net_growth_cents := 0
            end_cumulative_return_rate := none }
        rows := [] }
  | first :: _ =>
    .ok
      { account_id := account_id
        account_name := account_name
        preset := preset
        requested_from := requested_from
        requested_to := requested_to
        effective_from := begin_date
        effective_to := (rows.getLastD first).effective_snapshot_date
        summary :=
          { count := rows.length
            start_assets_cents := some first.total_assets_cents
            end_assets_cents := some (rows.getLastD first).total_assets_cents
            change_cents := (rows.getLastD first).total_assets_cents - first.total_assets_cents
            change_pct :=
              if 0 < first.total_assets_cents then
                some
                  (((rows.getLastD first).total_assets_cents - first.total_assets_cents : ℚ) /
                    (first.total_assets_cents : ℚ))
              else none
            end_net_growth_cents := (rows.getLastD first).cumulative_net_growth_cents
            end_cumulative_return_rate :=
              ((rows.getLastD first).cumulative_return_rate).map fun v => roundTo v 8 }
        rows := rows }

/-- Model of `build_single_account_investment_curve_payload`. -/
def build_single_account_investment_curve_payload (db : List InvRecord)
    (accounts : List AccountRow) (account_id : String) (preset : String)
    (from_raw to_raw : Option Date) : Except String CurvePayload :=
  (load_investment_account_bounds db accounts account_id).bind fun bounds =>
    (resolve_window preset from_raw to_raw bounds.earliest bounds.latest).bind fun window =>
      match select_begin_snapshot db account_id window.effective_from window.effective_to with
      | none => .error "区间内没有可用的期初资产记录"
      | some begin_row =>
        match select_end_snapshot db account_id begin_row.snapshot_date window.effective_to with
        | none => .error "区间内没有可用的期末资产记录"
        | some fer =>
          if fer.snapshot_date < begin_row.snapshot_date then
            .error "区间内有效快照不足，无法生成曲线"
          else
            (buildCurveRows db account_id begin_row.snapshot_date fer.snapshot_date
                begin_row.total_assets_cents
                (candidateDates db account_id begin_row.snapshot_date fer.snapshot_date)).bind
              fun rows =>
                singleCurveFinish account_id bounds.account_name preset window.requested_from
                  (to_raw.getD bounds.latest) begin_row.snapshot_date fer.snapshot_date rows

/-- C8 counterexample: A curve request whose window is empty (custom `from`
past all data) returns a `ValidationError` ("起始日期晚于结束日期"), not a
successful empty-curve payload. -/
theorem curve_empty_window_counterexample :
    build_single_account_investment_curve_payload
        [⟨"a", ⟨2026, 1, 1⟩, 100000, 0⟩] [] "a" "custom" (some ⟨2026, 5, 1⟩) none =
      .error "起始日期晚于结束日期" := by
  rfl

/-- C8 amended: When the candidate-date loop produces no rows, the Curve
Builder returns a successful explicit empty-curve payload: `count = 0`, `null`
percentage fields (`change_pct` and `end_cumulative_return_rate` are `None`),
a zero change and zero growth — rather than an error.  (A missing begin
snapshot or an empty window, by contrast, surfaces as an error.) -/
theorem curve_empty_rows_amended (account_id account_name preset : String)
    (requested_from requested_to begin_date final_end_date : Date) :
    singleCurveFinish account_id account_name preset requested_from requested_to begin_date
        final_end_date [] =
      .ok
        { account_id := account_id
          account_name := account_name
          preset := preset
          requested_from := requested_from
          requested_to := requested_to
          effective_from := begin_date
          effective_to := final_end_date
          summary :=
            { count := 0
              start_assets_cents := none
              end_assets_cents := none
              change_cents := 0
              change_pct := none
              end_net_growth_cents := 0
              end_cumulative_return_rate := none }
          rows := [] } := rfl

/-! ## Batch returns query (`investment_returns_query_at_db_path`)

The per-account loop calls `build_single_account_investment_return_payload`;
a failure is pushed onto `errors` and the loop continues.  The source then
re-extracts fields from the per-account JSON payload with `get_i64`-style
accessors; on the structured payload those extractions are total (the payload
always carries the fields), so they are plain field reads here. -/

def SUPPORTED_PRESETS : List String := ["ytd", "1y", "3y", "since_inception", "custom"]

/-- ASCII lower-casing of one character (`to_lowercase`; the preset tokens and
keyword comparison in the source are ASCII). -/
def lowerChar (c : Char) : Char :=
  if 65 <= c.toNat && c.toNat <= 90 then Char.ofNat (c.toNat + 32) else c

def isWhitespaceChar (c : Char) : Bool := c = ' ' || c = '\t' || c = '\n' || c = '\r'

/-- Model of `raw.trim().to_lowercase()` (char-level model). -/
def normalizeParam (s : String) : String :=
  String.mk
    (((s.data.dropWhile isWhitespaceChar).reverse.dropWhile
        isWhitespaceChar).reverse.map lowerChar)

/-- Model of `to_lowercase()` alone. -/
def strToLower (s : String) : String := String.mk (s.data.map lowerChar)

/-- Model of `parse_preset_with_default`. -/
def parse_preset_with_default (raw : Option String) (default_preset : String) :
    Except String String :=
  if SUPPORTED_PRESETS.contains
      (if normalizeParam (raw.getD default_preset) = "" then default_preset
      else normalizeParam (raw.getD default_preset)) then
    .ok
      (if normalizeParam (raw.getD default_preset) = "" then default_preset
      else normalizeParam (raw.getD default_preset))
  else
    .error
      ("preset 不支持: " ++
        (if normalizeParam (raw.getD default_preset) = "" then default_preset
        else normalizeParam (raw.getD default_preset)) ++
        "，可选 " ++ String.intercalate ", " SUPPORTED_PRESETS)

/-- Model of `parse_preset` (default `ytd`). -/
def parse_preset (raw : Option String) : Except String String :=
  parse_preset_with_default raw "ytd"

/-- One row of the per-account `GROUP BY` listing. -/
structure AccountSummaryRow where
  account_id : String
  account_name : String
  record_count : Nat
  first_snapshot_date : Date
  latest_snapshot_date : Date
deriving DecidableEq, Repr

/-- Model of `ORDER BY latest_snapshot_date DESC, account_name`. -/
def acctOrdB (a b : AccountSummaryRow) : Bool :=
  if b.latest_snapshot_date.toRata < a.latest_snapshot_date.toRata then true
  else if a.latest_snapshot_date.toRata < b.latest_snapshot_date.toRata then false
  else a.account_name ≤ b.account_name

def acctOrd (a b : AccountSummaryRow) : Prop := acctOrdB a b = true

instance : DecidableRel acctOrd := fun a b => inferInstanceAs (Decidable (_ = true))

/-- The per-account listing query of `investment_returns_query_at_db_path`. -/
def listAccountRows (db : List InvRecord) (accounts : List AccountRow) :
    List AccountSummaryRow :=
  List.insertionSort acctOrd
    (((db.map (·.account_id)).dedup).filterMap fun aid =>
      match minDateOf ((db.filter fun r => r.account_id = aid).map (·.snapshot_date)),
          maxDateOf ((db.filter fun r => r.account_id = aid).map (·.snapshot_date)) with
      | some e, some l =>
        some ⟨aid, nameOf accounts aid, (db.filter fun r => r.account_id = aid).length, e, l⟩
      | _, _ => none)

/-- Substring test (`str::contains`). -/
def containsSub (hay need : String) : Bool :=
  (List.range (hay.toList.length + 1)).any fun i => need.toList.isPrefixOf (hay.toList.drop i)

/-- The keyword filter and `limit` cut of the account listing loop. -/
def keywordFilterTake (rows : List AccountSummaryRow) (keyword : String) (limit : Nat) :
    List AccountSummaryRow :=
  (if keyword = "" then rows
    else
      rows.filter fun r =>
        containsSub (strToLower r.account_id) keyword ||
          containsSub (strToLower r.account_name) keyword).take
    limit

/-- One flattened batch result row (yuan/pct texts omitted). -/
structure BatchRow where
  account_id : String
  account_name : String
  record_count : Nat
  first_snapshot_date : Date
  latest_snapshot_date : Date
  effective_from : Date
  effective_to : Date
  interval_days : Int
  begin_assets_cents : Int
  end_assets_cents : Int
  net_flow_cents : Int
  profit_cents : Int
  net_growth_cents : Int
  return_rate : Option ℚ
  note : String
deriving DecidableEq, Repr

structure BatchErrorEntry where
  account_id : String
  account_name : String
  error : String
deriving DecidableEq, Repr

structure BatchSummary where
  account_count : Nat
  computed_count : Nat
  error_count : Nat
  avg_return_rate : Option ℚ
deriving DecidableEq, Repr

structure BatchPayload where
  preset : String
  input_limit : Nat
  keyword : String
  summary : BatchSummary
  rows : List BatchRow
  errors : List BatchErrorEntry
deriving DecidableEq, Repr

/-- Flattening of one successful per-account payload into a batch row. -/
def mkBatchRow (a : AccountSummaryRow) (p : SingleReturnPayload) : BatchRow :=
  ⟨a.account_id, a.account_name, a.record_count, a.first_snapshot_date,
    a.latest_snapshot_date, p.range.effective_from, p.range.effective_to,
    p.range.interval_days, p.metrics.begin_assets_cents, p.metrics.end_assets_cents,
    p.metrics.net_flow_cents, p.metrics.profit_cents, p.metrics.net_growth_cents,
    p.metrics.return_rate, p.metrics.note⟩

/-- The result sort: `return_rate` descending, defined rates before undefined,
ties by account name. -/
def batchRowLeB (a b : BatchRow) : Bool :=
  match a.return_rate, b.return_rate with
  | some ra, some rb =>
    if rb < ra then true
    else if ra < rb then false
    else a.account_name ≤ b.account_name
  | some _, none => true
  | none, some _ => false
  | none, none => a.account_name ≤ b.account_name

def batchRowLe (a b : BatchRow) : Prop := batchRowLeB a b = true

instance : DecidableRel batchRowLe := fun a b => inferInstanceAs (Decidable (_ = true))

def selectedAccountRows (db : List InvRecord) (accounts : List AccountRow)
    (keyword : String) (limit : Nat) : List AccountSummaryRow :=
  keywordFilterTake (listAccountRows db accounts) keyword limit

/-- The successful rows of the per-account loop. -/
def batchComputedRows (db : List InvRecord) (accounts : List AccountRow) (preset : String)
    (from_raw to_raw : Option Date) (keyword : String) (limit : Nat) : List BatchRow :=
  (selectedAccountRows db accounts keyword limit).filterMap fun a =>
    (build_single_account_investment_return_payload db accounts a.account_id preset from_raw
        to_raw).toOption.map
      (mkBatchRow a)

/-- The `errors` array of the per-account loop. -/
def batchErrors (db : List InvRecord) (accounts : List AccountRow) (preset : String)
    (from_raw to_raw : Option Date) (keyword : String) (limit : Nat) : List BatchErrorEntry :=
  (selectedAccountRows db accounts keyword limit).filterMap fun a =>
    match build_single_account_investment_return_payload db accounts a.account_id preset
        from_raw to_raw with
    | .error e => some ⟨a.account_id, a.account_name, e⟩
    | .ok _ => none

def batchSortedRows (db : List InvRecord) (accounts : List AccountRow) (preset : String)
    (from_raw to_raw : Option Date) (keyword : String) (limit : Nat) : List BatchRow :=
  List.insertionSort batchRowLe (batchComputedRows db accounts preset from_raw to_raw keyword limit)

/-- Model of `avg_return_rate` over the rows with a defined rate. -/
def batchAvg (db : List InvRecord) (accounts : List AccountRow) (preset : String)
    (from_raw to_raw : Option Date) (keyword : String) (limit : Nat) : Option ℚ :=
  if ((batchSortedRows db accounts preset from_raw to_raw keyword limit).filterMap
      (·.return_rate)).isEmpty then
    none
  else
    some
      (((batchSortedRows db accounts preset from_raw to_raw keyword limit).filterMap
          (·.return_rate)).sum /
        (((batchSortedRows db accounts preset from_raw to_raw keyword limit).filterMap
            (·.return_rate)).length : ℚ))

/-- The assembled batch payload. -/
def batchPayloadOf (db : List InvRecord) (accounts : List AccountRow) (preset : String)
    (from_raw to_raw : Option Date) (keyword : String) (limit : Nat) : BatchPayload :=
  { preset := preset
    input_limit := limit
    keyword := keyword
    summary :=
      { account_count := (selectedAccountRows db accounts keyword limit).length
        computed_count := (batchSortedRows db accounts preset from_raw to_raw keyword limit).length
        error_count := (batchErrors db accounts preset from_raw to_raw keyword limit).length
        avg_return_rate :=
          (batchAvg db accounts preset from_raw to_raw keyword limit).map fun v => roundTo v 8 }
    rows := batchSortedRows db accounts preset from_raw to_raw keyword limit
    errors := batchErrors db accounts preset from_raw to_raw keyword limit }

/-- Model of `investment_returns_query_at_db_path` over in-memory tables. -/
def investment_returns_query (db : List InvRecord) (accounts : List AccountRow)
    (preset_raw : Option String) (from_raw to_raw : Option Date)
    (keyword_raw : Option String) (limit_raw : Option Nat) : Except String BatchPayload :=
  (parse_preset preset_raw).bind fun preset =>
    (if preset = "custom" then (parseOptDate from_raw "from").map fun _ => () else .ok ()).bind
      fun _ =>
        .ok
          (batchPayloadOf db accounts preset from_raw to_raw
            (normalizeParam (keyword_raw.getD "")) (min (max (limit_raw.getD 200) 1) 500))

lemma filterMap_partition_length {A B C : Type} (g : A → Except String SingleReturnPayload)
    (f : A → SingleReturnPayload → B) (k : A → String → C) :
    ∀ l : List A,
      (l.filterMap fun a => (g a).toOption.map (f a)).length +
          (l.filterMap fun a =>
            match g a with
            | .error e => some (k a e)
            | .ok _ => none).length =
        l.length := by
  intro l
  induction l with
  | nil => rfl
  | cons a t ih =>
    simp only [Except.toOption] at ih ⊢
    cases hg : g a with
    | error e =>
      simp [List.filterMap_cons, hg]
      omega
    | ok v =>
      simp [List.filterMap_cons, hg]
      omega

/-- C10: Whenever the request itself parses (valid preset; explicit `from`
when the preset is `custom`), the batch query succeeds; each failing account
contributes exactly one `errors` entry carrying its id, name and error
message while the other accounts are still computed; `error_count` counts the
failures, `computed_count` counts the result rows, and together they account
for every selected account. -/
theorem batch_errors_isolated (db : List InvRecord) (accounts : List AccountRow)
    (preset_raw : Option String) (from_raw to_raw : Option Date)
    (keyword_raw : Option String) (limit_raw : Option Nat) (preset : String)
    (hpr : parse_preset preset_raw = .ok preset)
    (hcustom : preset = "custom" → from_raw ≠ none) :
    ∃ p,
      investment_returns_query db accounts preset_raw from_raw to_raw keyword_raw limit_raw =
          .ok p ∧
        p.errors =
          (selectedAccountRows db accounts (normalizeParam (keyword_raw.getD ""))
              (min (max (limit_raw.getD 200) 1) 500)).filterMap
            (fun a =>
              match build_single_account_investment_return_payload db accounts a.account_id
                  preset from_raw to_raw with
              | .error e => some ⟨a.account_id, a.account_name, e⟩
              | .ok _ => none) ∧
        p.summary.error_count = p.errors.length ∧
        p.summary.computed_count = p.rows.length ∧
        p.summary.computed_count + p.summary.error_count = p.summary.account_count := by
  have hok :
      (if preset = "custom" then (parseOptDate from_raw "from").map fun _ => ()
        else .ok ()) = .ok () := by
    split
    · rename_i hc
      cases hfrom : from_raw with
      | none => exact absurd hfrom (hcustom hc)
      | some d => rfl
    · rfl
  unfold investment_returns_query
  rw [hpr]
  simp only [Except.bind]
  rw [hok]
  refine ⟨_, rfl, rfl, rfl, ?_, ?_⟩
  · show (batchSortedRows db accounts preset from_raw to_raw _ _).length = _
    rfl
  · show (batchSortedRows db accounts preset from_raw to_raw _ _).length +
      (batchErrors db accounts preset from_raw to_raw _ _).length =
      (selectedAccountRows db accounts _ _).length
    rw [batchSortedRows, List.length_insertionSort]
    rw [batchComputedRows, batchErrors]
    exact filterMap_partition_length _ _ _ _

theorem batch_errors_isolated_witness :
    ∃ p,
      investment_returns_query
            [⟨"good", ⟨2026, 1, 1⟩, 1000, 0⟩, ⟨"good", ⟨2026, 2, 1⟩, 1100, 0⟩,
              ⟨"bad", ⟨2026, 3, 1⟩, 500, 0⟩]
            [] none none none none none =
          .ok p ∧
        p.errors =
          (selectedAccountRows
              [⟨"good", ⟨2026, 1, 1⟩, 1000, 0⟩, ⟨"good", ⟨2026, 2, 1⟩, 1100, 0⟩,
                ⟨"bad", ⟨2026, 3, 1⟩, 500, 0⟩]
              [] (normalizeParam ((none : Option String).getD ""))
              (min (max ((none : Option Nat).getD 200) 1) 500)).filterMap
            (fun a =>
              match build_single_account_investment_return_payload
                  [⟨"good", ⟨2026, 1, 1⟩, 1000, 0⟩, ⟨"good", ⟨2026, 2, 1⟩, 1100, 0⟩,
                    ⟨"bad", ⟨2026, 3, 1⟩, 500, 0⟩]
                  [] a.account_id "ytd" none none with
              | .error e => some ⟨a.account_id, a.account_name, e⟩
              | .ok _ => none) ∧
        p.summary.error_count = p.errors.length ∧
        p.summary.computed_count = p.rows.length ∧
        p.summary.computed_count + p.summary.error_count = p.summary.account_count :=
  batch_errors_isolated
    [⟨"good", ⟨2026, 1, 1⟩, 1000, 0⟩, ⟨"good", ⟨2026, 2, 1⟩, 1100, 0⟩,
      ⟨"bad", ⟨2026, 3, 1⟩, 500, 0⟩]
    [] none none none none none "ytd" (by rfl) (fun h => absurd h (by decide))

end KeepWise
